import Mathlib

/-!
# PolyDodge-Competitive: verification of the authoritative match core

Shallow embedding of the server-side match simulation (`Match` in the
server source: tick loop, input consumption, ball physics, catch/throw/hit
resolution, match-phase state machine) and of the client-side snapshot
interpolation (`NetworkManager.getInterpolatedState`).

Conventions of the embedding:
* JavaScript numbers are modelled as exact arithmetic: geometric
  quantities (positions, velocities, angles, charge) as `ℝ` (the source
  uses `Math.sqrt`/`sin`/`cos`/`atan2`), clock-like scalars that only ever
  meet rational arithmetic (stamina, countdown, match time, timestamps)
  as `ℚ`.
* `Date.now()` is impure: functions that read it take an explicit
  `now : ℤ` argument; `Math.random()` likewise becomes an explicit
  sampling function argument.
* JS `Map` iteration order is insertion order; maps of entities are
  modelled as lists iterated in order, with lookup by id.
* Socket emission (`socket.emit`) is external I/O and has no effect on
  simulation state; `broadcastSnapshot`'s only state effect is clearing
  the event accumulator, which is kept.
-/

namespace PolyDodge

/-! ## Geometry primitives (THREE.Vector3) -/

@[ext]
structure Vec3 where
  x : ℝ
  y : ℝ
  z : ℝ

namespace Vec3

def add (a b : Vec3) : Vec3 := ⟨a.x + b.x, a.y + b.y, a.z + b.z⟩

def sub (a b : Vec3) : Vec3 := ⟨a.x - b.x, a.y - b.y, a.z - b.z⟩

def multiplyScalar (a : Vec3) (s : ℝ) : Vec3 := ⟨a.x * s, a.y * s, a.z * s⟩

noncomputable def length (a : Vec3) : ℝ := Real.sqrt (a.x ^ 2 + a.y ^ 2 + a.z ^ 2)

noncomputable def distanceTo (a b : Vec3) : ℝ := (a.sub b).length

def dot (a b : Vec3) : ℝ := a.x * b.x + a.y * b.y + a.z * b.z

/-- THREE.Vector3.normalize: `divideScalar(this.length() || 1)` — a zero
vector is left unchanged (division by 1). -/
noncomputable def normalize (a : Vec3) : Vec3 :=
  let l := a.length
  let d := if l = 0 then 1 else l
  ⟨a.x / d, a.y / d, a.z / d⟩

end Vec3

/-- `Math.sign`. -/
noncomputable def jsSign (x : ℝ) : ℝ := if x > 0 then 1 else if x < 0 then -1 else 0

/-- `Math.atan2 y x`. -/
noncomputable def jsAtan2 (y x : ℝ) : ℝ :=
  if x > 0 then Real.arctan (y / x)
  else if x < 0 ∧ y ≥ 0 then Real.arctan (y / x) + Real.pi
  else if x < 0 ∧ y < 0 then Real.arctan (y / x) - Real.pi
  else if x = 0 ∧ y > 0 then Real.pi / 2
  else if x = 0 ∧ y < 0 then -(Real.pi / 2)
  else 0

/-- `Math.max lo (Math.min hi x)` as used for the arena clamp. -/
noncomputable def jsClamp (lo hi x : ℝ) : ℝ := max lo (min hi x)

/-! ## Protocol types (src/game/network/protocol) -/

def TICK_RATE : ℕ := 30

/-- `TICK_DT = 1 / TICK_RATE` (exact). -/
def TICK_DT : ℚ := 1 / 30

structure MoveInput where
  x : ℝ
  z : ℝ

structure ThrowInput where
  active : Bool
  charge : ℝ
  curve : ℝ

/-- `InputPacket`. The source field names `throw`/`catch` collide with Lean
keywords and are rendered `throwIn`/`catchIn`. -/
structure InputPacket where
  seq : ℤ
  timestamp : ℤ
  move : MoveInput
  aim : Vec3
  sprint : Bool
  block : Bool
  throwIn : ThrowInput
  catchIn : Bool

inductive Team where
  | blue
  | red
deriving DecidableEq

inductive PState where
  | alive
  | out
  | respawning
deriving DecidableEq

inductive BState where
  | idle
  | held
  | thrown
deriving DecidableEq

inductive BType where
  | normal
  | curve
  | lob
deriving DecidableEq

inductive MState where
  | warmup
  | playing
  | finished
deriving DecidableEq

inductive Mode where
  | casual
  | ranked
deriving DecidableEq

/-- The `winner` payload of a win event (`'blue' | 'red' | 'draw'`). -/
inductive Winner where
  | blue
  | red
  | draw
deriving DecidableEq

/-- `GameEvent`. The elimination cause field is the source's `by`
(a string or null: a player id, or the literal `'disconnect'`). -/
inductive GameEvent where
  | elimination (playerId : String) (cause : Option String) (timestamp : ℤ)
  | catchEv (playerId : String) (ballId : ℕ) (timestamp : ℤ)
  | win (winner : Winner) (timestamp : ℤ)
deriving DecidableEq

/-! ## Server entities -/

/-- `ServerPlayer` (the `socket` handle is external I/O and not state). -/
structure ServerPlayer where
  id : String
  team : Team
  pos : Vec3
  vel : Vec3
  rot : ℝ
  state : PState
  stamina : ℚ
  holding : Option ℕ
  blocking : Bool
  charge : ℝ
  lastInputSeq : ℤ
  inputBuffer : List InputPacket

structure ServerBall where
  id : ℕ
  pos : Vec3
  vel : Vec3
  state : BState
  owner : Option String
  type : BType
  curveFactor : ℝ
  lastInteraction : ℤ

/-- The mutable state of one `Match` instance.  `running` models whether
`tickInterval` is set (`start` sets it, `stop` clears it). -/
structure Match where
  id : String
  mode : Mode
  players : List ServerPlayer
  balls : List ServerBall
  events : List GameEvent
  running : Bool
  startTime : ℤ
  matchTime : ℚ
  tickCount : ℕ
  lastTickTime : ℤ
  matchState : MState
  countdown : ℚ
  history : List (ℕ × List (String × Vec3))

def HISTORY_SIZE : ℕ := 30

/-! ## Match operations -/

/-- `stop()`: `clearInterval` on the tick timer. -/
def Match.stop (m : Match) : Match := { m with running := false }

/-- `start()` (the interval itself is external; `startTime`/`lastTickTime`
are set from the wall clock). -/
def Match.start (now : ℤ) (m : Match) : Match :=
  { m with startTime := now, lastTickTime := now, running := true }

/-- `isFinished()`. -/
def Match.isFinished (m : Match) : Prop := m.matchTime ≤ 0 ∨ m.players = []

/-- The buffer sort in the `'input'` socket listener:
`inputBuffer.sort((a, b) => a.seq - b.seq)` — a stable sort by sequence
number (JS `Array.prototype.sort` is stable). -/
def sortBySeq (l : List InputPacket) : List InputPacket :=
  l.insertionSort (fun a b => a.seq ≤ b.seq)

/-- The `'input'` socket listener registered in the constructor: a packet
whose sequence is not strictly greater than the player's last consumed
sequence is discarded; otherwise it is pushed and the buffer re-sorted. -/
def receivePacket (p : ServerPlayer) (packet : InputPacket) : ServerPlayer :=
  if packet.seq > p.lastInputSeq then
    { p with inputBuffer := sortBySeq (p.inputBuffer ++ [packet]) }
  else p

/-- The `'input'` listener at the match level (`players.get(socket.id)`). -/
def Match.receiveInput (m : Match) (sid : String) (packet : InputPacket) : Match :=
  { m with players := m.players.map fun p =>
      if p.id = sid then receivePacket p packet else p }

/-- `removePlayer(id)`: mark eliminated, emit a disconnect elimination
event, force any ball owned by the player to idle with no owner, then
delete the entity. -/
def Match.removePlayer (m : Match) (pid : String) (now : ℤ) : Match :=
  let found := m.players.any fun p => p.id = pid
  let evs :=
    if found then
      m.events ++ [.elimination pid (some "disconnect") now]
    else m.events
  let ps := (m.players.map fun p =>
      if p.id = pid then { p with state := PState.out } else p).filter
    fun p => p.id ≠ pid
  let bs := m.balls.map fun b =>
    if b.owner = some pid then
      { b with state := BState.idle, owner := none, vel := ⟨0, 0, 0⟩ }
    else b
  { m with players := ps, balls := bs, events := evs }

/-- The player part of `respawnAll()`: spawn position (random x sampled
as `rand p.id`, height 1.05, team-side z), zero velocity, alive, full
stamina, holding nothing. -/
noncomputable def respawnedPlayer (rand : String → ℝ) (p : ServerPlayer) : ServerPlayer :=
  { p with
    pos := ⟨(rand p.id - 0.5) * 20, 1.05, if p.team = Team.blue then -20 else 20⟩,
    vel := ⟨0, 0, 0⟩,
    state := PState.alive,
    stamina := 100,
    holding := none }

/-- The ball part of `respawnAll()`: idle, unowned, at the initial slot. -/
noncomputable def respawnedBall (b : ServerBall) : ServerBall :=
  { b with
    state := BState.idle,
    owner := none,
    vel := ⟨0, 0, 0⟩,
    pos := ⟨((b.id : ℝ) - 2.5) * 5, 0.5, 0⟩ }

/-- `respawnAll()`: every player back to its spawn configuration and every
ball to its initial idle slot.  `Math.random()` is modelled by the
explicit sample `rand p.id`. -/
noncomputable def respawnAll (rand : String → ℝ) (m : Match) : Match :=
  { m with
    players := m.players.map (respawnedPlayer rand),
    balls := m.balls.map respawnedBall }

/-- The per-tick phase state machine (warmup countdown, playing clock,
finish with a win event — the source emits `winner: 'draw'` with a
`TODO: Determine winner` comment — and `stop()`). -/
noncomputable def Match.phaseUpdate (rand : String → ℝ) (now : ℤ) (m : Match) : Match :=
  if m.matchState = MState.warmup then
    let cd := m.countdown - TICK_DT
    if cd ≤ 0 then
      respawnAll rand { m with matchState := MState.playing, countdown := 0 }
    else { m with countdown := cd }
  else if m.matchState = MState.playing then
    let mt := m.matchTime - TICK_DT
    if mt ≤ 0 then
      Match.stop
        { m with
          matchTime := mt
          matchState := MState.finished
          events := m.events ++ [GameEvent.win Winner.draw now] }
    else { m with matchTime := mt }
  else m

/-- `throwBall(p, throwInput)` applied to the held ball: the new ball
fields.  The velocity is the normalized facing direction scaled by
`25 + charge * 25`, with the y component then overwritten by
`2 + charge * 5`. -/
noncomputable def thrownBall (p : ServerPlayer) (ti : ThrowInput) (b : ServerBall) : ServerBall :=
  let aimDir := (Vec3.mk (Real.sin p.rot) 0 (Real.cos p.rot)).normalize
  let speed := 25 + ti.charge * 25
  let v := aimDir.multiplyScalar speed
  { b with
    state := BState.thrown,
    owner := some p.id,
    pos := ⟨p.pos.x, p.pos.y + 1.5, p.pos.z⟩,
    vel := ⟨v.x, 2 + ti.charge * 5, v.z⟩,
    type := if |ti.curve| > (0.5 : ℝ) then BType.curve else BType.normal,
    curveFactor := ti.curve }

/-- `throwBall`: a lookup miss is a no-op; otherwise the held ball becomes
thrown and the player stops holding. -/
noncomputable def throwBall (p : ServerPlayer) (ti : ThrowInput) (balls : List ServerBall) :
    ServerPlayer × List ServerBall :=
  match p.holding with
  | none => (p, balls)
  | some hid =>
    match balls.find? (fun b => b.id = hid) with
    | none => (p, balls)
    | some _ =>
      ({ p with holding := none },
       balls.map fun b => if b.id = hid then thrownBall p ti b else b)

/-- One iteration of the `tryCatch` ball loop: the accumulator carries the
(possibly updated) player, the `caught` flag and the event list. -/
noncomputable def tryCatchStep (now : ℤ)
    (acc : ServerPlayer × Bool × List GameEvent × List ServerBall) (b : ServerBall) :
    ServerPlayer × Bool × List GameEvent × List ServerBall :=
  let p := acc.1
  let caught := acc.2.1
  let evs := acc.2.2.1
  let out := acc.2.2.2
  if caught then (p, caught, evs, out ++ [b])
  else if b.state = BState.thrown ∧ b.owner ≠ some p.id then
    if p.pos.distanceTo b.pos < (3 : ℝ) then
      let toBall := (b.pos.sub p.pos).normalize
      let facing : Vec3 := ⟨Real.sin p.rot, 0, Real.cos p.rot⟩
      if facing.dot toBall > (0.5 : ℝ) then
        ({ p with holding := some b.id }, true,
         evs ++ [.catchEv p.id b.id now],
         out ++ [{ b with state := BState.held, owner := some p.id, vel := ⟨0, 0, 0⟩ }])
      else (p, caught, evs, out ++ [b])
    else (p, caught, evs, out ++ [b])
  else if b.state = BState.idle ∧ p.holding = none then
    if p.pos.distanceTo b.pos < (2 : ℝ) then
      ({ p with holding := some b.id }, true, evs,
       out ++ [{ b with state := BState.held, owner := some p.id }])
    else (p, caught, evs, out ++ [b])
  else (p, caught, evs, out ++ [b])

/-- `tryCatch(p)`: scan the balls in order; a thrown ball of another owner
within 3 units and inside the facing cone is caught (with a catch event),
an idle ball within 2 units is picked up when holding nothing; the
`caught` flag stops the scan after the first acquisition. -/
noncomputable def tryCatch (p : ServerPlayer) (balls : List ServerBall)
    (evs : List GameEvent) (now : ℤ) :
    ServerPlayer × List ServerBall × List GameEvent :=
  let r := balls.foldl (tryCatchStep now) (p, false, evs, [])
  (r.1, r.2.2.2, r.2.2.1)

/-- One iteration of the `checkHits` player loop: the accumulator carries
the ball, events and the players already scanned. -/
noncomputable def checkHitsStep (now : ℤ)
    (acc : ServerBall × List GameEvent × List ServerPlayer) (p : ServerPlayer) :
    ServerBall × List GameEvent × List ServerPlayer :=
  let b := acc.1
  let evs := acc.2.1
  let out := acc.2.2
  if some p.id = b.owner ∨ p.state ≠ PState.alive then (b, evs, out ++ [p])
  else if p.pos.distanceTo b.pos < (1 : ℝ) then
    ({ b with state := BState.idle, vel := ⟨b.vel.x * 0.2, 5, b.vel.z * 0.2⟩ },
     evs ++ [.elimination p.id b.owner now],
     out ++ [{ p with state := PState.out }])
  else (b, evs, out ++ [p])

/-- `checkHits(b)`: every non-owning alive player within 1 unit is
eliminated (event attributed to the ball's owner); the ball is demoted to
idle with damped velocity and a pop-up.  Note the source does not clear
`b.owner` here. -/
noncomputable def checkHits (b : ServerBall) (players : List ServerPlayer)
    (evs : List GameEvent) (now : ℤ) :
    ServerBall × List GameEvent × List ServerPlayer :=
  players.foldl (checkHitsStep now) (b, evs, [])

/-- The gravity / integration step of the free-ball physics. -/
noncomputable def gravityMove (b : ServerBall) : ServerBall :=
  let dt : ℝ := (TICK_DT : ℝ)
  let v1 := if b.pos.y > (0.35 : ℝ) then Vec3.mk b.vel.x (b.vel.y - 15 * dt) b.vel.z else b.vel
  { b with vel := v1, pos := b.pos.add (v1.multiplyScalar dt) }

/-- The floor-bounce step: damp and reflect on floor contact, and demote a
thrown ball (state read before the bounce, as in the source) to idle
clearing ownership.  `st` is the ball's state before the move. -/
noncomputable def floorBounce (st : BState) (b1 : ServerBall) : ServerBall :=
  if b1.pos.y < (0.35 : ℝ) then
    let base := { b1 with
      pos := ⟨b1.pos.x, 0.35, b1.pos.z⟩,
      vel := ⟨b1.vel.x * 0.9, b1.vel.y * (-0.6), b1.vel.z * 0.9⟩ }
    if st = BState.thrown then
      { base with state := BState.idle, owner := none, type := BType.normal }
    else base
  else b1

/-- The wall-bounce steps (x then z): clamp, reflect with damping, demote
to idle — ownership is not cleared here. -/
noncomputable def wallBounce (b2 : ServerBall) : ServerBall :=
  let b3 :=
    if |b2.pos.x| > (29 : ℝ) then
      { b2 with
        pos := ⟨jsSign b2.pos.x * 29, b2.pos.y, b2.pos.z⟩,
        vel := ⟨b2.vel.x * (-0.6), b2.vel.y, b2.vel.z⟩,
        state := BState.idle }
    else b2
  if |b3.pos.z| > (29 : ℝ) then
    { b3 with
      pos := ⟨b3.pos.x, b3.pos.y, jsSign b3.pos.z * 29⟩,
      vel := ⟨b3.vel.x, b3.vel.y, b3.vel.z * (-0.6)⟩,
      state := BState.idle }
  else b3

/-- The whole free-ball movement block of the physics loop. -/
noncomputable def freeBallStep (b : ServerBall) : ServerBall :=
  wallBounce (floorBounce b.state (gravityMove b))

/-- The per-ball physics step of `tick` (gravity, integration, floor
bounce with flight demotion clearing ownership, wall bounce demoting to
idle without clearing ownership, hit detection; held balls are slaved to
the holder or demoted to idle when the holder is gone). -/
noncomputable def physicsBall (players : List ServerPlayer) (evs : List GameEvent)
    (now : ℤ) (b : ServerBall) :
    ServerBall × List ServerPlayer × List GameEvent :=
  if b.state = BState.thrown ∨ b.state = BState.idle then
    let b4 := freeBallStep b
    if b4.state = BState.thrown ∧ b4.vel.length > (5 : ℝ) then
      let r := checkHits b4 players evs now
      (r.1, r.2.2, r.2.1)
    else (b4, players, evs)
  else if b.state = BState.held ∧ b.owner.isSome then
    -- `b.owner` is a socket id, never the empty string, so JS truthiness
    -- of the owner field is `Option.isSome`.
    match players.find? (fun p => some p.id = b.owner) with
    | some p => ({ b with pos := ⟨p.pos.x, p.pos.y + 1, p.pos.z⟩ }, players, evs)
    | none => ({ b with state := BState.idle, owner := none }, players, evs)
  else (b, players, evs)

/-- Processing of one drained input packet for one player (the body of the
`while (p.inputBuffer.length > 0)` loop). -/
noncomputable def applyIntent (now : ℤ) (p : ServerPlayer) (balls : List ServerBall)
    (evs : List GameEvent) (input : InputPacket) :
    ServerPlayer × List ServerBall × List GameEvent :=
  let p := { p with lastInputSeq := input.seq }
  if p.state ≠ PState.alive then (p, balls, evs)
  else
    let dt : ℝ := (TICK_DT : ℝ)
    let speed : ℝ := if input.sprint ∧ p.stamina > 0 then 15 else 8
    let moveDir := (Vec3.mk input.move.x 0 input.move.z).normalize
    let vel : Vec3 := ⟨moveDir.x * speed, p.vel.y, moveDir.z * speed⟩
    let pos1 := p.pos.add (vel.multiplyScalar dt)
    let pos2 : Vec3 := ⟨jsClamp (-30) 30 pos1.x, pos1.y, jsClamp (-30) 30 pos1.z⟩
    let p := { p with vel := vel, pos := pos2, rot := jsAtan2 input.aim.x input.aim.z }
    let pb :=
      if input.throwIn.active ∧ p.holding ≠ none then throwBall p input.throwIn balls
      else (p, balls)
    let pbe :=
      if input.catchIn then tryCatch pb.1 pb.2 evs now
      else (pb.1, pb.2, evs)
    let p := pbe.1
    let stamina' :=
      if input.sprint then max 0 (p.stamina - 10 * TICK_DT)
      else min 100 (p.stamina + 5 * TICK_DT)
    ({ p with stamina := stamina' }, pbe.2.1, pbe.2.2)

/-- Drain a player's entire input buffer in order, leaving it empty. -/
noncomputable def drainPlayer (now : ℤ) (p : ServerPlayer) (balls : List ServerBall)
    (evs : List GameEvent) :
    ServerPlayer × List ServerBall × List GameEvent :=
  let r := p.inputBuffer.foldl
    (fun (acc : ServerPlayer × List ServerBall × List GameEvent) input =>
      applyIntent now acc.1 acc.2.1 acc.2.2 input)
    (p, balls, evs)
  ({ r.1 with inputBuffer := [] }, r.2.1, r.2.2)

/-- Step 1 of `tick`: drain every player's buffer, in player order,
threading the shared balls and events. -/
noncomputable def processPlayers (now : ℤ) :
    List ServerPlayer → List ServerBall → List GameEvent →
    List ServerPlayer × List ServerBall × List GameEvent
  | [], balls, evs => ([], balls, evs)
  | p :: rest, balls, evs =>
    let r := drainPlayer now p balls evs
    let rr := processPlayers now rest r.2.1 r.2.2
    (r.1 :: rr.1, rr.2.1, rr.2.2)

/-- Step 2 of `tick`: per-ball physics, in ball order, threading players
(hit elimination) and events. -/
noncomputable def physicsBalls (now : ℤ) :
    List ServerBall → List ServerPlayer → List GameEvent →
    List ServerBall × List ServerPlayer × List GameEvent
  | [], ps, evs => ([], ps, evs)
  | b :: rest, ps, evs =>
    let r := physicsBall ps evs now b
    let rr := physicsBalls now rest r.2.1 r.2.2
    (r.1 :: rr.1, rr.2.1, rr.2.2)

/-- Step 3 of `tick`: record the position history for lag compensation,
retaining `HISTORY_SIZE` ticks. -/
def recordHistory (m : Match) : Match :=
  let h1 := m.history ++ [(m.tickCount, m.players.map fun p => (p.id, p.pos))]
  let h2 :=
    if h1.length > HISTORY_SIZE then h1.filter fun e => e.1 ≠ m.tickCount - HISTORY_SIZE
    else h1
  { m with history := h2 }

/-- `broadcastSnapshot()`: the wire snapshot itself is external I/O; its
one state effect is clearing the event accumulator after the send. -/
def Match.broadcastSnapshot (m : Match) : Match := { m with events := [] }

/-- One simulation tick: phase machine, input consumption, ball physics,
history, and broadcast every 2nd tick. -/
noncomputable def Match.tick (rand : String → ℝ) (now : ℤ) (m : Match) : Match :=
  let m1 := Match.phaseUpdate rand now { m with tickCount := m.tickCount + 1 }
  let pr := processPlayers now m1.players m1.balls m1.events
  let br := physicsBalls now pr.2.1 pr.1 pr.2.2
  let m2 := recordHistory { m1 with players := br.2.1, balls := br.1, events := br.2.2 }
  if m2.tickCount % 2 = 0 then m2.broadcastSnapshot else m2

/-- An externally observable simulation step: an input packet arriving on
a connection, or one timer tick. -/
inductive SimStep where
  | receive (sid : String) (packet : InputPacket)
  | tick (now : ℤ)

noncomputable def applyStep (rand : String → ℝ) (m : Match) : SimStep → Match
  | .receive sid packet => m.receiveInput sid packet
  | .tick now => m.tick rand now

noncomputable def applySteps (rand : String → ℝ) (m : Match) (steps : List SimStep) : Match :=
  steps.foldl (applyStep rand) m

/-- `k` consecutive ticks with no intervening input. -/
noncomputable def iterTick (rand : String → ℝ) (now : ℤ) (k : ℕ) (m : Match) : Match :=
  (Match.tick rand now)^[k] m

/-! ## Invariants and auxiliary predicates -/

/-- The per-player part of the C4 invariant: stamina in `[0, 100]`,
x and z within the arena half-extent (30). -/
def PlayerInv (p : ServerPlayer) : Prop :=
  0 ≤ p.stamina ∧ p.stamina ≤ 100 ∧ |p.pos.x| ≤ 30 ∧ |p.pos.z| ≤ 30

def MatchPlayersInv (m : Match) : Prop := ∀ p ∈ m.players, PlayerInv p

/-- No ball is in state held with a null owner. -/
def HeldOwnerInv (balls : List ServerBall) : Prop :=
  ∀ b ∈ balls, b.state = BState.held → b.owner ≠ none

/-- The number of balls currently in state held. -/
def countHeld (balls : List ServerBall) : ℕ :=
  (balls.filter fun b => b.state = BState.held).length

/-- The alive player count of a team — the quantity the spec's tie-break
policy is stated in terms of (the source leaves the winner computation as
a `TODO` and always emits a draw). -/
def aliveCount (t : Team) (ps : List ServerPlayer) : ℕ :=
  (ps.filter fun p => p.team = t ∧ p.state = PState.alive).length

/-- The y coordinate a free ball has after the gravity and integration
steps of `physicsBall`, before the floor test reads it. -/
noncomputable def postMoveY (b : ServerBall) : ℝ :=
  (b.pos.add ((if b.pos.y > (0.35 : ℝ) then
      Vec3.mk b.vel.x (b.vel.y - 15 * (TICK_DT : ℝ)) b.vel.z
    else b.vel).multiplyScalar (TICK_DT : ℝ))).y

/-! ## Concrete states used by the closed theorems -/

noncomputable def mkPlayer (pid : String) (team : Team) (st : PState) (z : ℝ) : ServerPlayer :=
  { id := pid, team := team, pos := ⟨0, 1.05, z⟩, vel := ⟨0, 0, 0⟩, rot := 0,
    state := st, stamina := 100, holding := none, blocking := false, charge := 0,
    lastInputSeq := 0, inputBuffer := [] }

/-- An idle ball resting on the floor (no physics movement). -/
noncomputable def restingBall (i : ℕ) : ServerBall :=
  { id := i, pos := ⟨0, 0.35, 0⟩, vel := ⟨0, 0, 0⟩, state := BState.idle, owner := none,
    type := BType.normal, curveFactor := 0, lastInteraction := 0 }

/-- A ball at its constructor-initial slot. -/
noncomputable def initBall (i : ℕ) : ServerBall :=
  { id := i, pos := ⟨((i : ℝ) - 2.5) * 5, 0.5, 0⟩, vel := ⟨0, 0, 0⟩, state := BState.idle,
    owner := none, type := BType.normal, curveFactor := 0, lastInteraction := 0 }

/-- A playing match one tick away from time-out: blue has one alive
player, red has none alive. -/
noncomputable def finishMatch : Match :=
  { id := "m", mode := Mode.casual,
    players := [mkPlayer "a" Team.blue PState.alive (-20), mkPlayer "b" Team.red PState.out 20],
    balls := [restingBall 0], events := [], running := true, startTime := 0,
    matchTime := TICK_DT, tickCount := 0, lastTickTime := 0,
    matchState := MState.playing, countdown := 0, history := [] }

/-- A freshly constructed match at the start of warmup (two players, the
six constructor balls, 5 s countdown). -/
noncomputable def warmupMatch : Match :=
  { id := "m", mode := Mode.casual,
    players := [mkPlayer "a" Team.blue PState.alive (-20), mkPlayer "b" Team.red PState.alive 20],
    balls := (List.range 6).map initBall, events := [], running := true, startTime := 0,
    matchTime := 180, tickCount := 0, lastTickTime := 0,
    matchState := MState.warmup, countdown := 5, history := [] }

/-- A player holding ball 0, facing +z from the origin. -/
noncomputable def holderP : ServerPlayer :=
  { mkPlayer "p" Team.blue PState.alive 0 with pos := ⟨0, 1.05, 0⟩, holding := some 0 }

/-- Ball 0, held by `holderP`. -/
noncomputable def heldA : ServerBall :=
  { restingBall 0 with state := BState.held, owner := some "p", pos := ⟨0, 2.05, 0⟩ }

/-- Ball 1, thrown by an opponent, one unit in front of `holderP`. -/
noncomputable def thrownB : ServerBall :=
  { restingBall 1 with
    state := BState.thrown
    owner := some "q"
    pos := ⟨0, 1.05, 1⟩
    vel := ⟨0, 0, -10⟩ }

/-- A throw intent with a grossly out-of-range charge (10, far beyond the
wire contract's `[0, 1.5]`). -/
noncomputable def bigThrow : ThrowInput := { active := true, charge := 10, curve := 0 }

/-- A thrown ball heading into the +x wall. -/
noncomputable def wallBall : ServerBall :=
  { id := 0, pos := ⟨28, 0.5, 0⟩, vel := ⟨60, 0, 0⟩, state := BState.thrown,
    owner := some "q", type := BType.normal, curveFactor := 0, lastInteraction := 0 }

/-- A playing match whose only ball is about to wall-bounce. -/
noncomputable def wallMatch : Match :=
  { id := "m", mode := Mode.casual,
    players := [mkPlayer "q" Team.blue PState.alive (-20)],
    balls := [wallBall], events := [], running := true, startTime := 0,
    matchTime := 180, tickCount := 0, lastTickTime := 0,
    matchState := MState.playing, countdown := 0, history := [] }

/-- The ball of `wallMatch` after one tick: wall-bounced to x = 29,
demoted to idle — with its owner retained. -/
noncomputable def wallBall1 : ServerBall :=
  { id := 0, pos := ⟨29, 29 / 60, 0⟩, vel := ⟨-36, -(1 / 2), 0⟩, state := BState.idle,
    owner := some "q", type := BType.normal, curveFactor := 0, lastInteraction := 0 }

/-- `wallMatch` after one tick. -/
noncomputable def wallMatch1 : Match :=
  { wallMatch with
    matchTime := 5399 / 30
    tickCount := 1
    balls := [wallBall1]
    history := [(1, [("q", (⟨0, 1.05, -20⟩ : Vec3))])] }

/-- The ball of `wallMatch` after two ticks: still idle, still owned. -/
noncomputable def wallBall2 : ServerBall :=
  { id := 0, pos := ⟨139 / 5, 9 / 20, 0⟩, vel := ⟨-36, -1, 0⟩, state := BState.idle,
    owner := some "q", type := BType.normal, curveFactor := 0, lastInteraction := 0 }

/-- A thrown ball below the floor threshold (its floor bounce fires on
the next physics step). -/
noncomputable def thrownLow : ServerBall :=
  { id := 0, pos := ⟨0, 0.3, 0⟩, vel := ⟨0, 0, 0⟩, state := BState.thrown,
    owner := some "q", type := BType.normal, curveFactor := 0, lastInteraction := 0 }

/-- A respawned ball after the physics step of the transition tick: the
same tick that respawns also applies one gravity step (the ball starts at
height 0.5 with zero velocity, so it ends at `29/60` with vertical
velocity `-1/2`). -/
noncomputable def settledBall (b : ServerBall) : ServerBall :=
  { b with
    state := BState.idle
    owner := none
    pos := ⟨((b.id : ℝ) - 2.5) * 5, 29 / 60, 0⟩
    vel := ⟨0, -(1 / 2), 0⟩ }

/-- The fold underlying `drainPlayer`. -/
noncomputable def drainFold (now : ℤ)
    (acc : ServerPlayer × List ServerBall × List GameEvent) (l : List InputPacket) :
    ServerPlayer × List ServerBall × List GameEvent :=
  l.foldl (fun acc input => applyIntent now acc.1 acc.2.1 acc.2.2 input) acc

/-! ## Client synchronization layer (NetworkManager) -/

structure PlayerSnapshot where
  id : String
  team : Team
  pos : Vec3
  vel : Vec3
  rotY : ℝ
  state : PState
  stamina : ℚ
  holding : Option ℕ
  blocking : Bool
  charge : ℝ

structure BallSnapshot where
  id : ℕ
  pos : Vec3
  vel : Vec3
  state : BState
  owner : Option String
  type : BType

/-- The wire `WorldSnapshot` (timestamps as exact numbers). -/
structure WorldSnapshot where
  tick : ℕ
  time : ℚ
  timestamp : ℚ
  matchState : MState
  countdown : ℚ
  players : List PlayerSnapshot
  balls : List BallSnapshot
  events : List GameEvent

/-- The `'snapshot'` socket listener: append, keep at most 20 buffered. -/
def receiveSnapshot (buf : List WorldSnapshot) (s : WorldSnapshot) : List WorldSnapshot :=
  let b := buf ++ [s]
  if b.length > 20 then b.tail else b

/-- What `getInterpolatedState` returns: `null`, a bare snapshot (the
lagging fallback), or an interpolation frame `{prev, next, fraction}`. -/
inductive InterpResult where
  | nullResult
  | lagged (snap : WorldSnapshot)
  | interp (prev next : WorldSnapshot) (fraction : ℚ)

/-- The `for` scan of `getInterpolatedState`: the first adjacent pair
whose timestamps straddle the interpolation time. -/
def findWindow (t : ℚ) : List WorldSnapshot → Option (WorldSnapshot × WorldSnapshot)
  | a :: b :: rest =>
    if a.timestamp ≤ t ∧ b.timestamp ≥ t then some (a, b) else findWindow t (b :: rest)
  | _ => none

/-- `getInterpolatedState(renderTime)`.  The source computes
`interpolationTime = Date.now() + serverTimeOffset - 100` (the
`renderTime` parameter is unused, as in the source); `serverTime`
stands for `Date.now() + this.serverTimeOffset`.  `prev`/`next` default
to the two oldest buffered snapshots; with fewer than two snapshots the
result is `null`. -/
def getInterpolatedState (snapshots : List WorldSnapshot) (serverTime : ℚ)
    (_renderTime : ℚ) : InterpResult :=
  let interpolationTime := serverTime - 100
  match snapshots with
  | s0 :: s1 :: _ =>
    let w := (findWindow interpolationTime snapshots).getD (s0, s1)
    if w.2.timestamp < interpolationTime then .lagged w.2
    else
      .interp w.1 w.2
        ((interpolationTime - w.1.timestamp) / (w.2.timestamp - w.1.timestamp))
  | _ => .nullResult

/-! ## Lemmas about the interpolation scan -/

/-- A snapshot literal with a given timestamp (payload irrelevant to the
interpolation logic). -/
def snapAt (ts : ℚ) : WorldSnapshot :=
  { tick := 0, time := 0, timestamp := ts, matchState := MState.playing,
    countdown := 0, players := [], balls := [], events := [] }

theorem findWindow_bracket (t : ℚ) :
    ∀ (pre : List WorldSnapshot) (s1 s2 : WorldSnapshot) (post : List WorldSnapshot),
      (∀ x ∈ pre, x.timestamp < t) → s1.timestamp < t → t ≤ s2.timestamp →
      findWindow t (pre ++ s1 :: s2 :: post) = some (s1, s2)
  | [], s1, s2, post, _, h1, h2 => by
    simp only [List.nil_append, findWindow]
    rw [if_pos ⟨le_of_lt h1, h2⟩]
  | a :: pre, s1, s2, post, hpre, h1, h2 => by
    have hrest := findWindow_bracket t pre s1 s2 post
      (fun x hx => hpre x (List.mem_cons_of_mem a hx)) h1 h2
    cases pre with
    | nil =>
      simp only [List.cons_append, List.nil_append, findWindow] at hrest ⊢
      rw [if_neg]
      · exact hrest
      · rintro ⟨-, hge⟩
        exact absurd hge (not_le.mpr h1)
    | cons c pre' =>
      have hc : c.timestamp < t := hpre c (List.mem_cons_of_mem a (List.mem_cons_self c pre'))
      simp only [List.cons_append, findWindow] at hrest ⊢
      rw [if_neg]
      · exact hrest
      · rintro ⟨-, hge⟩
        exact absurd hge (not_le.mpr hc)

theorem getInterpolatedState_of_findWindow (snaps : List WorldSnapshot)
    (x y : WorldSnapshot) (sT rT : ℚ)
    (hw : findWindow (sT - 100) snaps = some (x, y))
    (hy : ¬ y.timestamp < sT - 100) :
    getInterpolatedState snaps sT rT =
      InterpResult.interp x y ((sT - 100 - x.timestamp) / (y.timestamp - x.timestamp)) := by
  cases snaps with
  | nil => simp [findWindow] at hw
  | cons s0 tl =>
    cases tl with
    | nil => simp [findWindow] at hw
    | cons s1 rest =>
      simp only [getInterpolatedState, hw, Option.getD_some]
      rw [if_neg hy]

/-- C3: for buffered snapshots `s1, s2` adjacent in the buffer with
timestamps `T1 < T2` (every snapshot before them being older than the
render timestamp, as in a timestamp-sorted buffer) and a render timestamp
`serverTime - 100` strictly between `T1` and `T2`, the interpolation query
returns `(s1, s2)` as `(prev, next)` with fraction
`(renderTime - T1) / (T2 - T1)`, which lies in `[0, 1]` and therefore
equals its own clamp to `[0, 1]`. -/
theorem interp_fraction_formula
    (pre post : List WorldSnapshot) (s1 s2 : WorldSnapshot) (serverTime renderTime : ℚ)
    (hpre : ∀ x ∈ pre, x.timestamp < serverTime - 100)
    (h1 : s1.timestamp < serverTime - 100)
    (h2 : serverTime - 100 < s2.timestamp) :
    getInterpolatedState (pre ++ s1 :: s2 :: post) serverTime renderTime =
      InterpResult.interp s1 s2
        ((serverTime - 100 - s1.timestamp) / (s2.timestamp - s1.timestamp)) ∧
    0 ≤ (serverTime - 100 - s1.timestamp) / (s2.timestamp - s1.timestamp) ∧
    (serverTime - 100 - s1.timestamp) / (s2.timestamp - s1.timestamp) ≤ 1 ∧
    (serverTime - 100 - s1.timestamp) / (s2.timestamp - s1.timestamp) =
      max 0 (min 1 ((serverTime - 100 - s1.timestamp) / (s2.timestamp - s1.timestamp))) := by
  have hw := findWindow_bracket (serverTime - 100) pre s1 s2 post hpre h1 (le_of_lt h2)
  have hden : (0 : ℚ) < s2.timestamp - s1.timestamp := by linarith
  have hnum : (0 : ℚ) < serverTime - 100 - s1.timestamp := by linarith
  have h0 : 0 ≤ (serverTime - 100 - s1.timestamp) / (s2.timestamp - s1.timestamp) :=
    le_of_lt (div_pos hnum hden)
  have hle : (serverTime - 100 - s1.timestamp) / (s2.timestamp - s1.timestamp) ≤ 1 := by
    rw [div_le_one hden]; linarith
  refine ⟨?_, h0, hle, ?_⟩
  · exact getInterpolatedState_of_findWindow _ s1 s2 serverTime renderTime hw (not_lt.mpr h2.le)
  · rw [min_eq_right hle, max_eq_right h0]

/-- C3 witness: buffer `[snapAt 0, snapAt 10]`, server time 105, so the
render timestamp 5 lies strictly between, giving fraction 1/2. -/
theorem interp_fraction_formula_witness :
    getInterpolatedState [snapAt 0, snapAt 10] 105 0 =
      InterpResult.interp (snapAt 0) (snapAt 10) ((105 - 100 - (snapAt 0).timestamp) / ((snapAt 10).timestamp - (snapAt 0).timestamp)) ∧
    0 ≤ (105 - 100 - (snapAt 0).timestamp) / ((snapAt 10).timestamp - (snapAt 0).timestamp) ∧
    (105 - 100 - (snapAt 0).timestamp) / ((snapAt 10).timestamp - (snapAt 0).timestamp) ≤ 1 ∧
    (105 - 100 - (snapAt 0).timestamp) / ((snapAt 10).timestamp - (snapAt 0).timestamp) =
      max 0 (min 1 ((105 - 100 - (snapAt 0).timestamp) / ((snapAt 10).timestamp - (snapAt 0).timestamp))) :=
  interp_fraction_formula [] [] (snapAt 0) (snapAt 10) 105 0
    (by intro x hx; simp at hx) (by norm_num [snapAt]) (by norm_num [snapAt])

/-- C2 (evaluation at the failing input): with three buffered snapshots
(timestamps 0, 10, 20) all strictly older than the render timestamp 100,
the source's fallback returns `snapshots[1]` — the second-oldest snapshot,
timestamp 10 — not the newest buffered snapshot (timestamp 20); with a
single buffered snapshot the query returns null. -/
theorem lag_fallback_returns_second_oldest :
    getInterpolatedState [snapAt 0, snapAt 10, snapAt 20] 200 0 =
      InterpResult.lagged (snapAt 10) ∧
    ([snapAt 0, snapAt 10, snapAt 20] : List WorldSnapshot).getLast? = some (snapAt 20) ∧
    (snapAt 10).timestamp < (snapAt 20).timestamp ∧
    getInterpolatedState [snapAt 0] 200 0 = InterpResult.nullResult ∧
    getInterpolatedState [] 200 0 = InterpResult.nullResult := by
  refine ⟨?_, rfl, by norm_num [snapAt], rfl, rfl⟩
  norm_num [getInterpolatedState, findWindow, snapAt]

/-- C8 (evaluation at the failing input): the throw charge is used
unclamped — `speed = 25 + charge * 25` — so a remote packet with charge
10 produces a thrown ball with forward speed 275 and total speed above
50, far outside the 25–50 range that in-range charges produce. -/
theorem throw_charge_unclamped :
    (throwBall holderP bigThrow [heldA]).2 =
      [{ heldA with
          state := BState.thrown
          owner := some "p"
          pos := ⟨0, 2.55, 0⟩
          vel := ⟨0, 52, 275⟩
          type := BType.normal
          curveFactor := 0 }] ∧
    (throwBall holderP bigThrow [heldA]).1.holding = none ∧
    Vec3.length ⟨0, 52, 275⟩ > 50 ∧ (275 : ℝ) > 25 + 1.5 * 25 := by
  refine ⟨?_, ?_, ?_, by norm_num⟩
  · norm_num [throwBall, holderP, bigThrow, heldA, restingBall, mkPlayer, thrownBall,
      Vec3.normalize, Vec3.length, Vec3.multiplyScalar, Real.sqrt_one]
  · norm_num [throwBall, holderP, bigThrow, heldA, restingBall, mkPlayer]
  · rw [Vec3.length]
    norm_num
    rw [Real.lt_sqrt (by norm_num : (0 : ℝ) ≤ 50)]
    norm_num

/-- C5 (evaluation at the failing input): the in-flight catch branch has
no `holding === null` guard, so a player already holding ball 0 catches
thrown ball 1; afterwards ball 0 is still in state held with owner `"p"`
while the player's held-ball reference is ball 1 — the mutual-consistency
invariant is broken by `tryCatch`. -/
theorem catch_while_holding_breaks_mutual_consistency :
    (tryCatch holderP [heldA, thrownB] [] 0).2.1 =
      [heldA, { thrownB with state := BState.held, owner := some "p", vel := ⟨0, 0, 0⟩ }] ∧
    (tryCatch holderP [heldA, thrownB] [] 0).1.holding = some 1 ∧
    heldA.state = BState.held ∧ heldA.owner = some (holderP.id) ∧ heldA.id = 0 ∧
    some (1 : ℕ) ≠ some 0 := by
  have step1 : tryCatchStep 0 (holderP, false, [], []) heldA = (holderP, false, [], [heldA]) := by
    simp [tryCatchStep, heldA, restingBall, holderP, mkPlayer]
  have hdist : holderP.pos.distanceTo thrownB.pos = 1 := by
    simp only [Vec3.distanceTo, Vec3.sub, Vec3.length, holderP, thrownB, restingBall, mkPlayer]
    norm_num [Real.sqrt_one]
  have hnorm : (thrownB.pos.sub holderP.pos).normalize = ⟨0, 0, 1⟩ := by
    simp only [Vec3.sub, Vec3.normalize, Vec3.length, holderP, thrownB, restingBall, mkPlayer]
    norm_num [Real.sqrt_one]
  have step2 : tryCatchStep 0 (holderP, false, [], [heldA]) thrownB =
      ({ holderP with holding := some 1 }, true, [GameEvent.catchEv "p" 1 0],
        [heldA, { thrownB with state := BState.held, owner := some "p", vel := ⟨0, 0, 0⟩ }]) := by
    rw [tryCatchStep]
    simp only [hdist, hnorm]
    simp [thrownB, restingBall, holderP, mkPlayer, heldA, Vec3.dot]
    norm_num
  refine ⟨?_, ?_, rfl, rfl, rfl, by norm_num⟩ <;>
    simp only [tryCatch, List.foldl, step1, step2]

/-- Draining an empty input buffer is a no-op. -/
theorem drainPlayer_empty (now : ℤ) (p : ServerPlayer) (bs : List ServerBall)
    (evs : List GameEvent) (h : p.inputBuffer = []) :
    drainPlayer now p bs evs = (p, bs, evs) := by
  obtain ⟨pid, team, pos, vel, rot, st, sta, hold, bl, ch, lis, buf⟩ := p
  simp only [ServerPlayer.mk.injEq] at h ⊢
  simp only [drainPlayer]
  rw [show buf = [] from h]
  rfl

/-- C1 (evaluation at the failing input): a playing match one tick from
time-out, with one alive blue player and no alive red player, transitions
to finished with `running = false` but emits `win draw` — the tie-break
policy (more survivors wins) is never computed (the source's
`TODO: Determine winner`). -/
theorem timeUp_emits_draw_despite_survivor_imbalance :
    (Match.tick (fun _ => 1 / 2) 0 finishMatch).matchState = MState.finished ∧
    (Match.tick (fun _ => 1 / 2) 0 finishMatch).running = false ∧
    (Match.tick (fun _ => 1 / 2) 0 finishMatch).events = [GameEvent.win Winner.draw 0] ∧
    aliveCount Team.blue finishMatch.players = 1 ∧
    aliveCount Team.red finishMatch.players = 0 ∧
    Winner.draw ≠ Winner.blue := by
  have hphase : Match.phaseUpdate (fun _ => 1 / 2) 0
      { finishMatch with tickCount := finishMatch.tickCount + 1 } =
      { finishMatch with
        tickCount := finishMatch.tickCount + 1
        matchTime := 0
        matchState := MState.finished
        events := [GameEvent.win Winner.draw 0]
        running := false } := by
    rw [Match.phaseUpdate]
    simp only [finishMatch]
    norm_num [Match.stop, TICK_DT]
    simp
  have hproc : ∀ (bs : List ServerBall) (evs : List GameEvent),
      processPlayers 0 finishMatch.players bs evs = (finishMatch.players, bs, evs) := by
    intro bs evs
    simp only [finishMatch, processPlayers,
      drainPlayer_empty 0 (mkPlayer "a" Team.blue PState.alive (-20)) _ _ (by simp [mkPlayer]),
      drainPlayer_empty 0 (mkPlayer "b" Team.red PState.out 20) _ _ (by simp [mkPlayer])]
  have hball : ∀ (ps : List ServerPlayer) (evs : List GameEvent),
      physicsBall ps evs 0 (restingBall 0) = (restingBall 0, ps, evs) := by
    intro ps evs
    rw [physicsBall]
    norm_num [restingBall, TICK_DT, freeBallStep, gravityMove, floorBounce, wallBounce,
      Vec3.add, Vec3.multiplyScalar]
    simp
  have hphys : ∀ (ps : List ServerPlayer) (evs : List GameEvent),
      physicsBalls 0 finishMatch.balls ps evs = (finishMatch.balls, ps, evs) := by
    intro ps evs
    simp only [finishMatch, physicsBalls, hball]
  refine ⟨?_, ?_, ?_, ?_, ?_, by simp⟩
  · rw [Match.tick]
    simp only [hphase, hproc, hphys, recordHistory, Match.broadcastSnapshot]
    simp [finishMatch, apply_ite]
  · rw [Match.tick]
    simp only [hphase, hproc, hphys, recordHistory, Match.broadcastSnapshot]
    simp [finishMatch, apply_ite]
  · rw [Match.tick]
    simp only [hphase, hproc, hphys, recordHistory, Match.broadcastSnapshot]
    simp [finishMatch, apply_ite]
  · simp [aliveCount, finishMatch, mkPlayer]
  · simp [aliveCount, finishMatch, mkPlayer]

theorem countHeld_append (l1 l2 : List ServerBall) :
    countHeld (l1 ++ l2) = countHeld l1 + countHeld l2 := by
  simp [countHeld, List.filter_append]

/-- After the `caught` flag is set, the remaining scan is the identity on
every component, appending the remaining balls unchanged. -/
theorem tryCatchStep_caught (now : ℤ) :
    ∀ (bs : List ServerBall) (p : ServerPlayer) (evs : List GameEvent) (out : List ServerBall),
      bs.foldl (tryCatchStep now) (p, true, evs, out) = (p, true, evs, out ++ bs)
  | [], p, evs, out => by simp
  | b :: bs, p, evs, out => by
    have hstep : tryCatchStep now (p, true, evs, out) b = (p, true, evs, out ++ [b]) := by
      simp [tryCatchStep]
    rw [List.foldl_cons, hstep, tryCatchStep_caught now bs p evs (out ++ [b])]
    simp

/-- Case analysis of one scan step before anything has been caught:
either the ball passes through unchanged with the flag still down, or it
is acquired (becoming held from a non-held state) and the flag goes up. -/
theorem tryCatchStep_uncaught (now : ℤ) (p : ServerPlayer) (evs : List GameEvent)
    (out : List ServerBall) (b : ServerBall) :
    (∃ p', tryCatchStep now (p, false, evs, out) b = (p', false, evs, out ++ [b])) ∨
    (∃ p' evs' b', tryCatchStep now (p, false, evs, out) b = (p', true, evs', out ++ [b']) ∧
      b.state ≠ BState.held ∧ b'.state = BState.held) := by
  rw [tryCatchStep]
  dsimp only
  rw [if_neg (by simp)]
  split_ifs with h1 h2 h3 h4 h5
  · refine Or.inr ⟨_, _, _, rfl, ?_, rfl⟩
    rw [h1.1]; simp
  · exact Or.inl ⟨p, rfl⟩
  · exact Or.inl ⟨p, rfl⟩
  · refine Or.inr ⟨_, _, _, rfl, ?_, rfl⟩
    rw [h4.1]; simp
  · exact Or.inl ⟨p, rfl⟩
  · exact Or.inl ⟨p, rfl⟩

theorem tryCatch_fold_countHeld (now : ℤ) :
    ∀ (bs : List ServerBall) (p : ServerPlayer) (evs : List GameEvent) (out : List ServerBall),
      countHeld (bs.foldl (tryCatchStep now) (p, false, evs, out)).2.2.2 ≤
        countHeld out + countHeld bs + 1
  | [], p, evs, out => by simp [countHeld]
  | b :: bs, p, evs, out => by
    rw [List.foldl_cons]
    rcases tryCatchStep_uncaught now p evs out b with ⟨p', hstep⟩ | ⟨p', evs', b', hstep, hb, hb'⟩
    · rw [hstep]
      calc countHeld (bs.foldl (tryCatchStep now) (p', false, evs, out ++ [b])).2.2.2 ≤
            countHeld (out ++ [b]) + countHeld bs + 1 :=
              tryCatch_fold_countHeld now bs p' evs (out ++ [b])
        _ = countHeld out + countHeld (b :: bs) + 1 := by
              rw [countHeld_append, show b :: bs = [b] ++ bs from rfl, countHeld_append]
              ring
    · rw [hstep, tryCatchStep_caught now bs p' evs' (out ++ [b'])]
      have h1 : countHeld [b'] = 1 := by simp [countHeld, hb']
      have h0 : countHeld [b] = 0 := by simp [countHeld, List.filter, hb]
      calc countHeld ((out ++ [b']) ++ bs) = countHeld out + 1 + countHeld bs := by
            rw [countHeld_append, countHeld_append, h1]
        _ ≤ countHeld out + countHeld (b :: bs) + 1 := by
            rw [show b :: bs = [b] ++ bs from rfl, countHeld_append, h0]
            omega

/-- C10: one invocation of the catch operation acquires at most one ball:
the held-ball count grows by at most one, and once the `caught` flag is
set every further ball in the scan passes through unchanged (no second
acquisition even with several balls in range). -/
theorem tryCatch_at_most_one_acquisition :
    (∀ (p : ServerPlayer) (balls : List ServerBall) (evs : List GameEvent) (now : ℤ),
      countHeld (tryCatch p balls evs now).2.1 ≤ countHeld balls + 1) ∧
    (∀ (now : ℤ) (balls out : List ServerBall) (p : ServerPlayer) (evs : List GameEvent),
      balls.foldl (tryCatchStep now) (p, true, evs, out) = (p, true, evs, out ++ balls)) := by
  constructor
  · intro p balls evs now
    have h := tryCatch_fold_countHeld now balls p evs []
    simpa [tryCatch, countHeld] using h
  · intro now balls out p evs
    exact tryCatchStep_caught now balls p evs out

/-! ## Player-frame lemmas: catch and throw only touch `holding` -/

theorem tryCatchStep_eqbh (now : ℤ)
    (acc : ServerPlayer × Bool × List GameEvent × List ServerBall) (b : ServerBall) :
    (tryCatchStep now acc b).1.id = acc.1.id ∧
    (tryCatchStep now acc b).1.team = acc.1.team ∧
    (tryCatchStep now acc b).1.pos = acc.1.pos ∧
    (tryCatchStep now acc b).1.vel = acc.1.vel ∧
    (tryCatchStep now acc b).1.rot = acc.1.rot ∧
    (tryCatchStep now acc b).1.state = acc.1.state ∧
    (tryCatchStep now acc b).1.stamina = acc.1.stamina ∧
    (tryCatchStep now acc b).1.lastInputSeq = acc.1.lastInputSeq ∧
    (tryCatchStep now acc b).1.inputBuffer = acc.1.inputBuffer := by
  rw [tryCatchStep]
  dsimp only
  split_ifs <;> simp

theorem tryCatch_fold_eqbh (now : ℤ) :
    ∀ (bs : List ServerBall) (acc : ServerPlayer × Bool × List GameEvent × List ServerBall),
      (bs.foldl (tryCatchStep now) acc).1.id = acc.1.id ∧
      (bs.foldl (tryCatchStep now) acc).1.team = acc.1.team ∧
      (bs.foldl (tryCatchStep now) acc).1.pos = acc.1.pos ∧
      (bs.foldl (tryCatchStep now) acc).1.vel = acc.1.vel ∧
      (bs.foldl (tryCatchStep now) acc).1.rot = acc.1.rot ∧
      (bs.foldl (tryCatchStep now) acc).1.state = acc.1.state ∧
      (bs.foldl (tryCatchStep now) acc).1.stamina = acc.1.stamina ∧
      (bs.foldl (tryCatchStep now) acc).1.lastInputSeq = acc.1.lastInputSeq ∧
      (bs.foldl (tryCatchStep now) acc).1.inputBuffer = acc.1.inputBuffer
  | [], acc => by simp
  | b :: bs, acc => by
    rw [List.foldl_cons]
    have h1 := tryCatch_fold_eqbh now bs (tryCatchStep now acc b)
    have h2 := tryCatchStep_eqbh now acc b
    exact ⟨h1.1.trans h2.1, (h1.2.1).trans h2.2.1, (h1.2.2.1).trans h2.2.2.1,
      (h1.2.2.2.1).trans h2.2.2.2.1, (h1.2.2.2.2.1).trans h2.2.2.2.2.1,
      (h1.2.2.2.2.2.1).trans h2.2.2.2.2.2.1, (h1.2.2.2.2.2.2.1).trans h2.2.2.2.2.2.2.1,
      (h1.2.2.2.2.2.2.2.1).trans h2.2.2.2.2.2.2.2.1,
      (h1.2.2.2.2.2.2.2.2).trans h2.2.2.2.2.2.2.2.2⟩

theorem tryCatch_eqbh (p : ServerPlayer) (balls : List ServerBall)
    (evs : List GameEvent) (now : ℤ) :
    (tryCatch p balls evs now).1.id = p.id ∧
    (tryCatch p balls evs now).1.team = p.team ∧
    (tryCatch p balls evs now).1.pos = p.pos ∧
    (tryCatch p balls evs now).1.vel = p.vel ∧
    (tryCatch p balls evs now).1.rot = p.rot ∧
    (tryCatch p balls evs now).1.state = p.state ∧
    (tryCatch p balls evs now).1.stamina = p.stamina ∧
    (tryCatch p balls evs now).1.lastInputSeq = p.lastInputSeq ∧
    (tryCatch p balls evs now).1.inputBuffer = p.inputBuffer := by
  simpa [tryCatch] using tryCatch_fold_eqbh now balls (p, false, evs, [])

theorem throwBall_eqbh (p : ServerPlayer) (ti : ThrowInput) (balls : List ServerBall) :
    (throwBall p ti balls).1.id = p.id ∧
    (throwBall p ti balls).1.team = p.team ∧
    (throwBall p ti balls).1.pos = p.pos ∧
    (throwBall p ti balls).1.vel = p.vel ∧
    (throwBall p ti balls).1.rot = p.rot ∧
    (throwBall p ti balls).1.state = p.state ∧
    (throwBall p ti balls).1.stamina = p.stamina ∧
    (throwBall p ti balls).1.lastInputSeq = p.lastInputSeq ∧
    (throwBall p ti balls).1.inputBuffer = p.inputBuffer := by
  rcases hp : p.holding with _ | hid
  · simp [throwBall, hp]
  · rcases hf : balls.find? (fun b => b.id = hid) with _ | bb <;>
      simp [throwBall, hp, hf]

/-- The projections of one consumed intent: `lastInputSeq` becomes the
intent's sequence; identity, team, life-state and buffer are untouched. -/
theorem applyIntent_proj (now : ℤ) (p : ServerPlayer) (bs : List ServerBall)
    (evs : List GameEvent) (i : InputPacket) :
    (applyIntent now p bs evs i).1.lastInputSeq = i.seq ∧
    (applyIntent now p bs evs i).1.state = p.state ∧
    (applyIntent now p bs evs i).1.inputBuffer = p.inputBuffer ∧
    (applyIntent now p bs evs i).1.id = p.id ∧
    (applyIntent now p bs evs i).1.team = p.team := by
  rw [applyIntent]
  dsimp only
  split_ifs with h1 h2 h3
  · simp
  all_goals {
    first
    | (refine ⟨?_, ?_, ?_, ?_, ?_⟩ <;>
        simp [tryCatch_eqbh, throwBall_eqbh,
          (tryCatch_eqbh _ _ _ _).1, (tryCatch_eqbh _ _ _ _).2.1,
          (tryCatch_eqbh _ _ _ _).2.2.2.2.2.1, (tryCatch_eqbh _ _ _ _).2.2.2.2.2.2.1,
          (tryCatch_eqbh _ _ _ _).2.2.2.2.2.2.2.1, (tryCatch_eqbh _ _ _ _).2.2.2.2.2.2.2.2,
          (throwBall_eqbh _ _ _).1, (throwBall_eqbh _ _ _).2.1,
          (throwBall_eqbh _ _ _).2.2.2.2.2.1, (throwBall_eqbh _ _ _).2.2.2.2.2.2.1,
          (throwBall_eqbh _ _ _).2.2.2.2.2.2.2.1, (throwBall_eqbh _ _ _).2.2.2.2.2.2.2.2])
  }

theorem drainPlayer_eq_drainFold (now : ℤ) (p : ServerPlayer) (bs : List ServerBall)
    (evs : List GameEvent) :
    drainPlayer now p bs evs =
      ({ (drainFold now (p, bs, evs) p.inputBuffer).1 with inputBuffer := [] },
        (drainFold now (p, bs, evs) p.inputBuffer).2.1,
        (drainFold now (p, bs, evs) p.inputBuffer).2.2) := rfl

theorem drainFold_last (now : ℤ) :
    ∀ (l : List InputPacket) (acc : ServerPlayer × List ServerBall × List GameEvent)
      (last : InputPacket), l.getLast? = some last →
      (drainFold now acc l).1.lastInputSeq = last.seq
  | [], _, _, h => by simp at h
  | [a], acc, last, h => by
    simp only [List.getLast?_singleton, Option.some.injEq] at h
    subst h
    simpa [drainFold] using (applyIntent_proj now acc.1 acc.2.1 acc.2.2 a).1
  | a :: b :: l, acc, last, h => by
    rw [show (a :: b :: l).getLast? = (b :: l).getLast? by simp [List.getLast?_cons_cons]] at h
    rw [show drainFold now acc (a :: b :: l) =
      drainFold now (applyIntent now acc.1 acc.2.1 acc.2.2 a) (b :: l) from rfl]
    exact drainFold_last now (b :: l) _ last h

/-- Consuming an intent of a non-alive player only advances the sequence
counter. -/
theorem applyIntent_dead (now : ℤ) (p : ServerPlayer) (bs : List ServerBall)
    (evs : List GameEvent) (i : InputPacket) (h : p.state ≠ PState.alive) :
    applyIntent now p bs evs i = ({ p with lastInputSeq := i.seq }, bs, evs) := by
  rw [applyIntent]
  dsimp only
  rw [if_pos (by simpa using h)]

theorem drainFold_dead (now : ℤ) :
    ∀ (l : List InputPacket) (p : ServerPlayer) (bs : List ServerBall)
      (evs : List GameEvent), p.state ≠ PState.alive →
      ∃ s, drainFold now (p, bs, evs) l = ({ p with lastInputSeq := s }, bs, evs)
  | [], p, bs, evs, _ => ⟨p.lastInputSeq, rfl⟩
  | a :: l, p, bs, evs, h => by
    rw [show drainFold now (p, bs, evs) (a :: l) =
      drainFold now (applyIntent now p bs evs a) l from rfl, applyIntent_dead now p bs evs a h]
    obtain ⟨s, hs⟩ :=
      drainFold_dead now l { p with lastInputSeq := a.seq } bs evs (by simpa using h)
    exact ⟨s, by simpa using hs⟩

instance : IsTotal InputPacket (fun a b : InputPacket => a.seq ≤ b.seq) :=
  ⟨fun a b => le_total a.seq b.seq⟩

instance : IsTrans InputPacket (fun a b : InputPacket => a.seq ≤ b.seq) :=
  ⟨fun _ _ _ hab hbc => le_trans hab hbc⟩

theorem sortBySeq_sorted (l : List InputPacket) :
    List.Sorted (fun a b : InputPacket => a.seq ≤ b.seq) (sortBySeq l) :=
  List.sorted_insertionSort _ l

/-- C7: per connection, an arriving packet with sequence not strictly
greater than the last consumed sequence is silently dropped; an accepted
packet leaves the buffer sorted by sequence; the tick handler drains the
entire buffer (each buffered intent consumed exactly once, in buffer
order), ending with `lastInputSeq` equal to the last consumed intent's
sequence; and for a non-alive player consumption advances the sequence
counter but has no movement, stamina, holding, ball or event effects. -/
theorem input_queue_discipline :
    (∀ (p : ServerPlayer) (packet : InputPacket),
      packet.seq ≤ p.lastInputSeq → receivePacket p packet = p) ∧
    (∀ (p : ServerPlayer) (packet : InputPacket),
      List.Sorted (fun a b : InputPacket => a.seq ≤ b.seq)
          (receivePacket p packet).inputBuffer ∨
        (receivePacket p packet).inputBuffer = p.inputBuffer) ∧
    (∀ (now : ℤ) (p : ServerPlayer) (bs : List ServerBall) (evs : List GameEvent),
      (drainPlayer now p bs evs).1.inputBuffer = [] ∧
      ∀ last, p.inputBuffer.getLast? = some last →
        (drainPlayer now p bs evs).1.lastInputSeq = last.seq) ∧
    (∀ (now : ℤ) (p : ServerPlayer) (bs : List ServerBall) (evs : List GameEvent),
      p.state ≠ PState.alive →
      (drainPlayer now p bs evs).2.1 = bs ∧
      (drainPlayer now p bs evs).2.2 = evs ∧
      (drainPlayer now p bs evs).1.pos = p.pos ∧
      (drainPlayer now p bs evs).1.vel = p.vel ∧
      (drainPlayer now p bs evs).1.stamina = p.stamina ∧
      (drainPlayer now p bs evs).1.holding = p.holding ∧
      (drainPlayer now p bs evs).1.state = p.state) := by
  refine ⟨?_, ?_, ?_, ?_⟩
  · intro p packet h
    rw [receivePacket, if_neg (not_lt.mpr h)]
  · intro p packet
    rw [receivePacket]
    split_ifs
    · exact Or.inl (by simpa using sortBySeq_sorted (p.inputBuffer ++ [packet]))
    · exact Or.inr rfl
  · intro now p bs evs
    refine ⟨rfl, fun last h => ?_⟩
    rw [drainPlayer_eq_drainFold]
    simpa using drainFold_last now p.inputBuffer (p, bs, evs) last h
  · intro now p bs evs h
    obtain ⟨s, hs⟩ := drainFold_dead now p.inputBuffer p bs evs h
    rw [drainPlayer_eq_drainFold, hs]
    simp

/-- C7 witness: a stale packet (sequence 0, equal to the player's last
consumed sequence) is dropped, and the drained buffer is empty. -/
theorem input_queue_discipline_witness :
    receivePacket (mkPlayer "a" Team.blue PState.alive 0)
        { seq := 0, timestamp := 0, move := ⟨0, 0⟩, aim := ⟨0, 0, 1⟩, sprint := false,
          block := false, throwIn := ⟨false, 0, 0⟩, catchIn := false } =
      mkPlayer "a" Team.blue PState.alive 0 ∧
    (drainPlayer 0 (mkPlayer "a" Team.blue PState.alive 0) [] []).1.inputBuffer = [] :=
  ⟨input_queue_discipline.1 _ _ (by norm_num [mkPlayer]),
   (input_queue_discipline.2.2.1 0 _ [] []).1⟩

/-! ## The stamina/arena-bounds invariant (C4) -/

theorem jsClamp_abs (x : ℝ) : |jsClamp (-30) 30 x| ≤ 30 := by
  rw [jsClamp, abs_le]
  exact ⟨le_max_left _ _, max_le (by norm_num) (min_le_left _ _)⟩

theorem applyIntent_stamina (now : ℤ) (p : ServerPlayer) (bs : List ServerBall)
    (evs : List GameEvent) (i : InputPacket) :
    (applyIntent now p bs evs i).1.stamina = p.stamina ∨
    (applyIntent now p bs evs i).1.stamina = max 0 (p.stamina - 10 * TICK_DT) ∨
    (applyIntent now p bs evs i).1.stamina = min 100 (p.stamina + 5 * TICK_DT) := by
  rw [applyIntent]
  dsimp only
  split_ifs <;>
    simp [(tryCatch_eqbh _ _ _ _).2.2.2.2.2.2.1, (throwBall_eqbh _ _ _).2.2.2.2.2.2.1]

theorem applyIntent_posxz (now : ℤ) (p : ServerPlayer) (bs : List ServerBall)
    (evs : List GameEvent) (i : InputPacket) :
    ((applyIntent now p bs evs i).1.pos.x = p.pos.x ∧
      (applyIntent now p bs evs i).1.pos.z = p.pos.z) ∨
    (∃ a c : ℝ, (applyIntent now p bs evs i).1.pos.x = jsClamp (-30) 30 a ∧
      (applyIntent now p bs evs i).1.pos.z = jsClamp (-30) 30 c) := by
  rw [applyIntent]
  dsimp only
  split_ifs <;>
    first
    | exact Or.inl ⟨rfl, rfl⟩
    | (refine Or.inr ?_
       simp only [(tryCatch_eqbh _ _ _ _).2.2.1, (throwBall_eqbh _ _ _).2.2.1]
       exact ⟨_, _, rfl, rfl⟩)

theorem applyIntent_inv (now : ℤ) (p : ServerPlayer) (bs : List ServerBall)
    (evs : List GameEvent) (i : InputPacket) (h : PlayerInv p) :
    PlayerInv (applyIntent now p bs evs i).1 := by
  obtain ⟨h0, h100, hx, hz⟩ := h
  refine ⟨?_, ?_, ?_, ?_⟩
  · rcases applyIntent_stamina now p bs evs i with h | h | h <;> rw [h]
    · exact h0
    · exact le_max_left _ _
    · exact le_min (by norm_num) (by linarith [show (0:ℚ) < TICK_DT by norm_num [TICK_DT]])
  · rcases applyIntent_stamina now p bs evs i with h | h | h <;> rw [h]
    · exact h100
    · exact max_le (by norm_num)
        (by linarith [show (0:ℚ) < TICK_DT by norm_num [TICK_DT]])
    · exact min_le_left _ _
  · rcases applyIntent_posxz now p bs evs i with ⟨h, -⟩ | ⟨a, c, h, -⟩ <;> rw [h]
    · exact hx
    · exact jsClamp_abs a
  · rcases applyIntent_posxz now p bs evs i with ⟨-, h⟩ | ⟨a, c, -, h⟩ <;> rw [h]
    · exact hz
    · exact jsClamp_abs c

theorem drainFold_inv (now : ℤ) :
    ∀ (l : List InputPacket) (acc : ServerPlayer × List ServerBall × List GameEvent),
      PlayerInv acc.1 → PlayerInv (drainFold now acc l).1
  | [], _, h => h
  | a :: l, acc, h =>
    drainFold_inv now l (applyIntent now acc.1 acc.2.1 acc.2.2 a)
      (applyIntent_inv now acc.1 acc.2.1 acc.2.2 a h)

theorem drainPlayer_inv (now : ℤ) (p : ServerPlayer) (bs : List ServerBall)
    (evs : List GameEvent) (h : PlayerInv p) : PlayerInv (drainPlayer now p bs evs).1 := by
  rw [drainPlayer_eq_drainFold]
  have := drainFold_inv now p.inputBuffer (p, bs, evs) h
  simpa [PlayerInv] using this

theorem processPlayers_inv (now : ℤ) :
    ∀ (ps : List ServerPlayer) (bs : List ServerBall) (evs : List GameEvent),
      (∀ p ∈ ps, PlayerInv p) →
      ∀ q ∈ (processPlayers now ps bs evs).1, PlayerInv q
  | [], _, _, _ => by simp [processPlayers]
  | p :: ps, bs, evs, h => by
    simp only [processPlayers]
    intro q hq
    rcases List.mem_cons.1 hq with rfl | hq
    · exact drainPlayer_inv now p bs evs (h p (List.mem_cons_self p ps))
    · exact processPlayers_inv now ps _ _ (fun r hr => h r (List.mem_cons_of_mem p hr)) q hq

theorem checkHitsStep_out (now : ℤ)
    (acc : ServerBall × List GameEvent × List ServerPlayer) (p : ServerPlayer) :
    (checkHitsStep now acc p).2.2 = acc.2.2 ++ [p] ∨
    (checkHitsStep now acc p).2.2 = acc.2.2 ++ [{ p with state := PState.out }] := by
  rw [checkHitsStep]
  split_ifs <;> simp

theorem checkHits_fold_inv (now : ℤ) :
    ∀ (ps : List ServerPlayer) (acc : ServerBall × List GameEvent × List ServerPlayer),
      (∀ q ∈ acc.2.2, PlayerInv q) → (∀ p ∈ ps, PlayerInv p) →
      ∀ q ∈ (ps.foldl (checkHitsStep now) acc).2.2, PlayerInv q
  | [], _, hacc, _ => hacc
  | p :: ps, acc, hacc, h => by
    rw [List.foldl_cons]
    refine checkHits_fold_inv now ps _ ?_ (fun r hr => h r (List.mem_cons_of_mem p hr))
    intro q hq
    have hp := h p (List.mem_cons_self p ps)
    rcases checkHitsStep_out now acc p with he | he <;> rw [he] at hq <;>
      rcases List.mem_append.1 hq with hq | hq
    · exact hacc q hq
    · rw [List.mem_singleton.1 hq]; exact hp
    · exact hacc q hq
    · rw [List.mem_singleton.1 hq]
      exact ⟨hp.1, hp.2.1, hp.2.2.1, hp.2.2.2⟩

theorem physicsBall_players_inv (now : ℤ) (b : ServerBall) (ps : List ServerPlayer)
    (evs : List GameEvent) (h : ∀ p ∈ ps, PlayerInv p) :
    ∀ q ∈ (physicsBall ps evs now b).2.1, PlayerInv q := by
  rw [physicsBall]
  dsimp only
  split_ifs with h1 h2 h3
  · exact checkHits_fold_inv now ps _ (by simp) h
  · exact h
  · rcases hf : ps.find? (fun p => some p.id = b.owner) with _ | pp <;> simp only [hf] <;>
      exact h
  · exact h

theorem physicsBalls_players_inv (now : ℤ) :
    ∀ (bs : List ServerBall) (ps : List ServerPlayer) (evs : List GameEvent),
      (∀ p ∈ ps, PlayerInv p) →
      ∀ q ∈ (physicsBalls now bs ps evs).2.1, PlayerInv q
  | [], _, _, h => h
  | b :: bs, ps, evs, h => by
    rw [physicsBalls]
    dsimp only
    exact physicsBalls_players_inv now bs _ _ (physicsBall_players_inv now b ps evs h)

theorem phaseUpdate_players (rand : String → ℝ) (now : ℤ) (m : Match) :
    (Match.phaseUpdate rand now m).players = m.players ∨
    (Match.phaseUpdate rand now m).players = m.players.map (respawnedPlayer rand) := by
  rw [Match.phaseUpdate]
  split_ifs <;> simp [respawnAll, Match.stop] <;> split_ifs <;> simp

theorem respawnedPlayer_inv (rand : String → ℝ) (hrand : ∀ s, 0 ≤ rand s ∧ rand s ≤ 1)
    (p : ServerPlayer) : PlayerInv (respawnedPlayer rand p) := by
  obtain ⟨hr0, hr1⟩ := hrand p.id
  refine ⟨by norm_num [respawnedPlayer], by norm_num [respawnedPlayer], ?_, ?_⟩
  · simp only [respawnedPlayer]
    rw [abs_le]
    constructor <;> nlinarith
  · simp only [respawnedPlayer]
    split_ifs <;> rw [abs_le] <;> norm_num

theorem tick_players_inv (rand : String → ℝ) (now : ℤ) (m : Match)
    (hrand : ∀ s, 0 ≤ rand s ∧ rand s ≤ 1) (hm : MatchPlayersInv m) :
    MatchPlayersInv (Match.tick rand now m) := by
  have h1 : ∀ p ∈ (Match.phaseUpdate rand now { m with tickCount := m.tickCount + 1 }).players,
      PlayerInv p := by
    rcases phaseUpdate_players rand now { m with tickCount := m.tickCount + 1 } with h | h <;>
      rw [h] <;> intro q hq
    · exact hm q (by simpa using hq)
    · simp only [Match.players] at hq
      obtain ⟨p, hp, rfl⟩ := List.mem_map.1 (by simpa using hq)
      exact respawnedPlayer_inv rand hrand p
  intro q hq
  rw [Match.tick] at hq
  split_ifs at hq <;>
    simp only [Match.broadcastSnapshot, recordHistory] at hq <;>
    exact physicsBalls_players_inv now _ _ _
      (processPlayers_inv now _ _ _ h1) q hq

theorem receiveInput_inv (m : Match) (sid : String) (packet : InputPacket)
    (hm : MatchPlayersInv m) : MatchPlayersInv (m.receiveInput sid packet) := by
  intro q hq
  simp only [Match.receiveInput] at hq
  obtain ⟨p, hp, rfl⟩ := List.mem_map.1 (by simpa using hq)
  have hinv := hm p hp
  split_ifs
  · rw [receivePacket]
    split_ifs
    · exact ⟨hinv.1, hinv.2.1, hinv.2.2.1, hinv.2.2.2⟩
    · exact hinv
  · exact hinv

/-- C4: starting from any match state whose players satisfy the invariant,
after any sequence of input arrivals and simulation ticks every player's
stamina stays within `[0, 100]` and the x and z coordinates stay within
the arena half-extent 30 (the random respawn samples being in `[0, 1]`,
as `Math.random()` is). -/
theorem stamina_position_bounded (rand : String → ℝ)
    (hrand : ∀ s, 0 ≤ rand s ∧ rand s ≤ 1) (m : Match) (hm : MatchPlayersInv m)
    (steps : List SimStep) : MatchPlayersInv (applySteps rand m steps) := by
  induction steps generalizing m with
  | nil => exact hm
  | cons s steps ih =>
    rw [applySteps, List.foldl_cons]
    cases s with
    | receive sid packet => exact ih _ (receiveInput_inv m sid packet hm)
    | tick now => exact ih _ (tick_players_inv rand now m hrand hm)

/-! ## Ball ownership lemmas (C6) -/

theorem gravityMove_fields (b : ServerBall) :
    (gravityMove b).state = b.state ∧ (gravityMove b).owner = b.owner ∧
    (gravityMove b).id = b.id := ⟨rfl, rfl, rfl⟩

theorem floorBounce_fields (st : BState) (b1 : ServerBall) :
    ((floorBounce st b1).state = b1.state ∨ (floorBounce st b1).state = BState.idle) ∧
    ((floorBounce st b1).owner = b1.owner ∨ (floorBounce st b1).owner = none) ∧
    (floorBounce st b1).id = b1.id := by
  rw [floorBounce]
  split_ifs <;> simp

theorem wallBounce_owner (b2 : ServerBall) : (wallBounce b2).owner = b2.owner := by
  rw [wallBounce]
  split_ifs <;> simp

theorem wallBounce_state (b2 : ServerBall) :
    (wallBounce b2).state = b2.state ∨ (wallBounce b2).state = BState.idle := by
  rw [wallBounce]
  split_ifs <;> simp

theorem wallBounce_id (b2 : ServerBall) : (wallBounce b2).id = b2.id := by
  rw [wallBounce]
  split_ifs <;> simp

theorem freeBallStep_state (b : ServerBall) :
    (freeBallStep b).state = b.state ∨ (freeBallStep b).state = BState.idle := by
  rw [freeBallStep]
  rcases wallBounce_state (floorBounce b.state (gravityMove b)) with h | h
  · rw [h]
    rcases (floorBounce_fields b.state (gravityMove b)).1 with h' | h'
    · rw [h', (gravityMove_fields b).1]; exact Or.inl rfl
    · exact Or.inr h'
  · exact Or.inr h

theorem freeBallStep_id (b : ServerBall) : (freeBallStep b).id = b.id := by
  rw [freeBallStep, wallBounce_id, (floorBounce_fields b.state (gravityMove b)).2.2,
    (gravityMove_fields b).2.2]

theorem checkHitsStep_ball (now : ℤ)
    (acc : ServerBall × List GameEvent × List ServerPlayer) (p : ServerPlayer) :
    ((checkHitsStep now acc p).1.state = acc.1.state ∨
      (checkHitsStep now acc p).1.state = BState.idle) ∧
    (checkHitsStep now acc p).1.owner = acc.1.owner ∧
    (checkHitsStep now acc p).1.id = acc.1.id := by
  rw [checkHitsStep]
  split_ifs <;> simp

theorem checkHits_fold_ball (now : ℤ) :
    ∀ (ps : List ServerPlayer) (acc : ServerBall × List GameEvent × List ServerPlayer),
      ((ps.foldl (checkHitsStep now) acc).1.state = acc.1.state ∨
        (ps.foldl (checkHitsStep now) acc).1.state = BState.idle) ∧
      (ps.foldl (checkHitsStep now) acc).1.owner = acc.1.owner ∧
      (ps.foldl (checkHitsStep now) acc).1.id = acc.1.id
  | [], acc => ⟨Or.inl rfl, rfl, rfl⟩
  | p :: ps, acc => by
    rw [List.foldl_cons]
    have h1 := checkHits_fold_ball now ps (checkHitsStep now acc p)
    have h2 := checkHitsStep_ball now acc p
    refine ⟨?_, h1.2.1.trans h2.2.1, h1.2.2.trans h2.2.2⟩
    rcases h1.1 with h | h
    · rcases h2.1 with h' | h'
      · exact Or.inl (h.trans h')
      · exact Or.inr (h.trans h')
    · exact Or.inr h

/-- The state/owner/id of the ball returned by `physicsBall`: its id is
preserved; a free ball's result state is the `freeBallStep` state or
idle; the held-ownership implication is preserved; non-thrown stays
non-thrown. -/
theorem physicsBall_free (ps : List ServerPlayer) (evs : List GameEvent) (now : ℤ)
    (b : ServerBall) (h1 : b.state = BState.thrown ∨ b.state = BState.idle) :
    (physicsBall ps evs now b).1.state = b.state ∨
    (physicsBall ps evs now b).1.state = BState.idle := by
  rw [physicsBall, if_pos h1]
  dsimp only
  by_cases h2 : (freeBallStep b).state = BState.thrown ∧ (freeBallStep b).vel.length > (5 : ℝ)
  · rw [if_pos h2]
    dsimp only
    rw [checkHits]
    rcases (checkHits_fold_ball now ps ((freeBallStep b), evs, [])).1 with h | h <;> rw [h]
    · exact freeBallStep_state b
    · exact Or.inr rfl
  · rw [if_neg h2]
    exact freeBallStep_state b

theorem physicsBall_id (ps : List ServerPlayer) (evs : List GameEvent) (now : ℤ)
    (b : ServerBall) : (physicsBall ps evs now b).1.id = b.id := by
  rw [physicsBall]
  by_cases h1 : b.state = BState.thrown ∨ b.state = BState.idle
  · rw [if_pos h1]
    dsimp only
    by_cases h2 : (freeBallStep b).state = BState.thrown ∧ (freeBallStep b).vel.length > (5 : ℝ)
    · rw [if_pos h2]
      dsimp only
      rw [checkHits]
      exact ((checkHits_fold_ball now ps _).2.2).trans (freeBallStep_id b)
    · rw [if_neg h2]
      exact freeBallStep_id b
  · rw [if_neg h1]
    by_cases h3 : b.state = BState.held ∧ b.owner.isSome
    · rw [if_pos h3]
      rcases hf : ps.find? (fun p => some p.id = b.owner) with _ | pp <;> simp [hf]
    · rw [if_neg h3]

theorem physicsBall_state_owner (ps : List ServerPlayer) (evs : List GameEvent) (now : ℤ)
    (b : ServerBall) (hb : b.state = BState.held → b.owner ≠ none) :
    (physicsBall ps evs now b).1.state = BState.held →
      (physicsBall ps evs now b).1.owner ≠ none := by
  by_cases h1 : b.state = BState.thrown ∨ b.state = BState.idle
  · intro hheld
    exfalso
    rcases physicsBall_free ps evs now b h1 with h | h <;> rw [hheld] at h
    · rcases h1 with h1 | h1 <;> rw [h1] at h <;> exact absurd h (by simp)
    · exact absurd h.symm (by simp)
  · rw [physicsBall, if_neg h1]
    by_cases h3 : b.state = BState.held ∧ b.owner.isSome
    · rw [if_pos h3]
      rcases hf : ps.find? (fun p => some p.id = b.owner) with _ | pp <;> simp only [hf]
      · simp
      · intro _
        have h4 : b.owner.isSome := h3.2
        simp only [ne_eq, Option.isSome_iff_ne_none] at h4 ⊢
        exact h4
    · rw [if_neg h3]
      exact hb

theorem physicsBall_not_thrown (ps : List ServerPlayer) (evs : List GameEvent) (now : ℤ)
    (b : ServerBall) (hb : b.state ≠ BState.thrown) :
    (physicsBall ps evs now b).1.state ≠ BState.thrown := by
  by_cases h1 : b.state = BState.thrown ∨ b.state = BState.idle
  · intro hc
    rcases physicsBall_free ps evs now b h1 with h | h <;> rw [hc] at h
    · exact hb h.symm
    · exact absurd h.symm (by simp)
  · rw [physicsBall, if_neg h1]
    by_cases h3 : b.state = BState.held ∧ b.owner.isSome
    · rw [if_pos h3]
      rcases hf : ps.find? (fun p => some p.id = b.owner) with _ | pp <;> simp [hf]
      rw [h3.1]
      simp
    · rw [if_neg h3]
      exact hb

theorem tryCatchStep_out_ball (now : ℤ)
    (acc : ServerPlayer × Bool × List GameEvent × List ServerBall) (b : ServerBall) :
    (tryCatchStep now acc b).2.2.2 = acc.2.2.2 ++ [b] ∨
    ∃ q, (tryCatchStep now acc b).2.2.2 = acc.2.2.2 ++ [q] ∧
      q.owner = some acc.1.id ∧ q.state = BState.held ∧ q.id = b.id := by
  rw [tryCatchStep]
  dsimp only
  split_ifs
  · exact Or.inl rfl
  · exact Or.inr ⟨_, rfl, rfl, rfl, rfl⟩
  · exact Or.inl rfl
  · exact Or.inl rfl
  · exact Or.inr ⟨_, rfl, rfl, rfl, rfl⟩
  · exact Or.inl rfl
  · exact Or.inl rfl

theorem tryCatch_fold_ballInv (now : ℤ) :
    ∀ (bs : List ServerBall) (acc : ServerPlayer × Bool × List GameEvent × List ServerBall),
      (∀ x ∈ acc.2.2.2, x.state = BState.held → x.owner ≠ none) →
      (∀ b ∈ bs, b.state = BState.held → b.owner ≠ none) →
      ∀ x ∈ (bs.foldl (tryCatchStep now) acc).2.2.2, x.state = BState.held → x.owner ≠ none
  | [], _, hacc, _ => hacc
  | b :: bs, acc, hacc, h => by
    rw [List.foldl_cons]
    refine tryCatch_fold_ballInv now bs _ ?_ (fun r hr => h r (List.mem_cons_of_mem b hr))
    intro x hx
    rcases tryCatchStep_out_ball now acc b with he | ⟨q, he, hq, -, -⟩ <;> rw [he] at hx <;>
      rcases List.mem_append.1 hx with hx | hx
    · exact hacc x hx
    · rw [List.mem_singleton.1 hx]; exact h b (List.mem_cons_self b bs)
    · exact hacc x hx
    · rw [List.mem_singleton.1 hx]; intro _; rw [hq]; simp

theorem tryCatch_ballInv (p : ServerPlayer) (balls : List ServerBall)
    (evs : List GameEvent) (now : ℤ)
    (h : ∀ b ∈ balls, b.state = BState.held → b.owner ≠ none) :
    ∀ x ∈ (tryCatch p balls evs now).2.1, x.state = BState.held → x.owner ≠ none := by
  have := tryCatch_fold_ballInv now balls (p, false, evs, []) (by simp) h
  simpa [tryCatch] using this

theorem throwBall_ballInv (p : ServerPlayer) (ti : ThrowInput) (balls : List ServerBall)
    (h : ∀ b ∈ balls, b.state = BState.held → b.owner ≠ none) :
    ∀ x ∈ (throwBall p ti balls).2, x.state = BState.held → x.owner ≠ none := by
  rcases hp : p.holding with _ | hid
  · simpa [throwBall, hp] using h
  · rcases hf : balls.find? (fun b => b.id = hid) with _ | bb
    · simpa [throwBall, hp, hf] using h
    · intro x hx
      simp only [throwBall, hp, hf, List.mem_map] at hx
      obtain ⟨b, hb, rfl⟩ := hx
      split_ifs
      · simp [thrownBall]
      · exact h b hb

theorem applyIntent_ballInv (now : ℤ) (p : ServerPlayer) (bs : List ServerBall)
    (evs : List GameEvent) (i : InputPacket)
    (h : ∀ b ∈ bs, b.state = BState.held → b.owner ≠ none) :
    ∀ x ∈ (applyIntent now p bs evs i).2.1, x.state = BState.held → x.owner ≠ none := by
  rw [applyIntent]
  dsimp only
  split_ifs <;>
    first
    | exact h
    | exact throwBall_ballInv _ _ _ h
    | exact tryCatch_ballInv _ _ _ _ h
    | exact tryCatch_ballInv _ _ _ _ (throwBall_ballInv _ _ _ h)

theorem drainFold_ballInv (now : ℤ) :
    ∀ (l : List InputPacket) (acc : ServerPlayer × List ServerBall × List GameEvent),
      (∀ b ∈ acc.2.1, b.state = BState.held → b.owner ≠ none) →
      ∀ x ∈ (drainFold now acc l).2.1, x.state = BState.held → x.owner ≠ none
  | [], _, h => h
  | a :: l, acc, h =>
    drainFold_ballInv now l (applyIntent now acc.1 acc.2.1 acc.2.2 a)
      (applyIntent_ballInv now acc.1 acc.2.1 acc.2.2 a h)

theorem processPlayers_ballInv (now : ℤ) :
    ∀ (ps : List ServerPlayer) (bs : List ServerBall) (evs : List GameEvent),
      (∀ b ∈ bs, b.state = BState.held → b.owner ≠ none) →
      ∀ x ∈ (processPlayers now ps bs evs).2.1, x.state = BState.held → x.owner ≠ none
  | [], _, _, h => h
  | p :: ps, bs, evs, h => by
    simp only [processPlayers]
    refine processPlayers_ballInv now ps _ _ ?_
    have := drainFold_ballInv now p.inputBuffer (p, bs, evs) h
    rw [drainPlayer_eq_drainFold]
    exact this

theorem physicsBalls_ballInv (now : ℤ) :
    ∀ (bs : List ServerBall) (ps : List ServerPlayer) (evs : List GameEvent),
      (∀ b ∈ bs, b.state = BState.held → b.owner ≠ none) →
      ∀ x ∈ (physicsBalls now bs ps evs).1, x.state = BState.held → x.owner ≠ none
  | [], _, _, _ => by simp [physicsBalls]
  | b :: bs, ps, evs, h => by
    simp only [physicsBalls]
    intro x hx
    rcases List.mem_cons.1 hx with rfl | hx
    · exact physicsBall_state_owner ps evs now b (h b (List.mem_cons_self b bs))
    · exact physicsBalls_ballInv now bs _ _
        (fun r hr => h r (List.mem_cons_of_mem b hr)) x hx

theorem phaseUpdate_balls (rand : String → ℝ) (now : ℤ) (m : Match) :
    (Match.phaseUpdate rand now m).balls = m.balls ∨
    (Match.phaseUpdate rand now m).balls = m.balls.map respawnedBall := by
  rw [Match.phaseUpdate]
  split_ifs <;> simp [respawnAll, Match.stop] <;> split_ifs <;> simp

theorem tick_ballInv (rand : String → ℝ) (now : ℤ) (m : Match)
    (hm : HeldOwnerInv m.balls) : HeldOwnerInv (Match.tick rand now m).balls := by
  have h1 : HeldOwnerInv (Match.phaseUpdate rand now { m with tickCount := m.tickCount + 1 }).balls := by
    rcases phaseUpdate_balls rand now { m with tickCount := m.tickCount + 1 } with h | h <;> rw [h]
    · intro b hb
      exact hm b (by simpa using hb)
    · intro b hb
      simp only [Match.balls] at hb
      obtain ⟨b0, hb0, rfl⟩ := List.mem_map.1 (by simpa using hb)
      simp [respawnedBall]
  intro q hq
  rw [Match.tick] at hq
  split_ifs at hq <;>
    simp only [Match.broadcastSnapshot, recordHistory] at hq <;>
    exact physicsBalls_ballInv now _ _ _
      (processPlayers_ballInv now _ _ _ h1) q hq

/-- A flight ended by the floor bounce clears ownership in that same step. -/
theorem floorRelease (players : List ServerPlayer) (evs : List GameEvent) (now : ℤ)
    (b : ServerBall) (hb : b.state = BState.thrown) (hfloor : postMoveY b < 0.35) :
    (physicsBall players evs now b).1.state = BState.idle ∧
    (physicsBall players evs now b).1.owner = none := by
  have hgy : (gravityMove b).pos.y = postMoveY b := rfl
  have hfb : floorBounce b.state (gravityMove b) =
      { gravityMove b with
        pos := ⟨(gravityMove b).pos.x, 0.35, (gravityMove b).pos.z⟩
        vel := ⟨(gravityMove b).vel.x * 0.9, (gravityMove b).vel.y * (-0.6),
                (gravityMove b).vel.z * 0.9⟩
        state := BState.idle
        owner := none
        type := BType.normal } := by
    rw [floorBounce, if_pos (by rw [hgy]; exact hfloor), if_pos hb]
  have hstate : (freeBallStep b).state = BState.idle := by
    rcases wallBounce_state (floorBounce b.state (gravityMove b)) with h | h <;>
      rw [freeBallStep, h] <;> try rfl
    rw [hfb]
  have howner : (freeBallStep b).owner = none := by
    rw [freeBallStep, wallBounce_owner, hfb]
  rw [physicsBall, if_pos (Or.inl hb), if_neg (by rw [hstate]; simp)]
  exact ⟨hstate, howner⟩

/-- C6 amended: a ball is never in state held with a null owner (the
invariant is preserved by every tick), and a flight ended by the floor
bounce has its ownership cleared in that same step; however a ball
demoted to idle by a wall bounce or by a hit retains its previous owner,
which can persist across consecutive ticks (see the counterexample). -/
theorem ball_ownership_amended :
    (∀ (rand : String → ℝ) (now : ℤ) (m : Match),
      HeldOwnerInv m.balls → HeldOwnerInv (Match.tick rand now m).balls) ∧
    (∀ (players : List ServerPlayer) (evs : List GameEvent) (now : ℤ) (b : ServerBall),
      b.state = BState.thrown → postMoveY b < 0.35 →
      (physicsBall players evs now b).1.state = BState.idle ∧
      (physicsBall players evs now b).1.owner = none) :=
  ⟨tick_ballInv, floorRelease⟩

/-- C6 counterexample: a thrown, owned ball wall-bounces on the first
tick — its flight ends, it becomes idle — yet its owner `"q"` persists
through that tick and the next: after two consecutive ticks the ball is
still idle with owner `"q"`, contradicting the claim that an idle ball
cannot keep a non-null owner for two consecutive ticks after release. -/
theorem wall_bounce_owner_persists :
    wallBall.state = BState.thrown ∧ wallBall.owner = some "q" ∧
    ((Match.tick (fun _ => 1 / 2) 0 wallMatch).balls.map fun b => (b.state, b.owner)) =
      [(BState.idle, some "q")] ∧
    ((Match.tick (fun _ => 1 / 2) 0 (Match.tick (fun _ => 1 / 2) 0 wallMatch)).balls.map
        fun b => (b.state, b.owner)) = [(BState.idle, some "q")] := by
  have hproc : ∀ (bs : List ServerBall) (evs : List GameEvent),
      processPlayers 0 wallMatch.players bs evs = (wallMatch.players, bs, evs) := by
    intro bs evs
    simp only [wallMatch, processPlayers,
      drainPlayer_empty 0 (mkPlayer "q" Team.blue PState.alive (-20)) _ _ (by simp [mkPlayer])]
  have hphase1 : Match.phaseUpdate (fun _ => 1 / 2) 0
      { wallMatch with tickCount := wallMatch.tickCount + 1 } =
      { wallMatch with tickCount := wallMatch.tickCount + 1, matchTime := 5399 / 30 } := by
    rw [Match.phaseUpdate]
    simp only [wallMatch]
    norm_num [Match.stop, TICK_DT]
    simp
  have hball1 : ∀ (ps : List ServerPlayer) (evs : List GameEvent),
      physicsBall ps evs 0 wallBall = (wallBall1, ps, evs) := by
    intro ps evs
    rw [physicsBall]
    norm_num [wallBall, wallBall1, freeBallStep, gravityMove, floorBounce, wallBounce,
      jsSign, Vec3.add, Vec3.multiplyScalar, TICK_DT]
    simp
  have hphys1 : ∀ (ps : List ServerPlayer) (evs : List GameEvent),
      physicsBalls 0 wallMatch.balls ps evs = ([wallBall1], ps, evs) := by
    intro ps evs
    simp only [wallMatch, physicsBalls, hball1]
  have htick1 : Match.tick (fun _ => 1 / 2) 0 wallMatch = wallMatch1 := by
    rw [Match.tick]
    simp only [hphase1, hproc, hphys1, recordHistory, Match.broadcastSnapshot]
    simp [wallMatch, wallMatch1, mkPlayer, HISTORY_SIZE]
  have hphase2 : Match.phaseUpdate (fun _ => 1 / 2) 0
      { wallMatch1 with tickCount := wallMatch1.tickCount + 1 } =
      { wallMatch1 with tickCount := wallMatch1.tickCount + 1, matchTime := 5398 / 30 } := by
    rw [Match.phaseUpdate]
    simp only [wallMatch1, wallMatch]
    norm_num [Match.stop, TICK_DT]
    simp
  have hproc2 : ∀ (bs : List ServerBall) (evs : List GameEvent),
      processPlayers 0 wallMatch1.players bs evs = (wallMatch1.players, bs, evs) := by
    intro bs evs
    simp only [wallMatch1, wallMatch, processPlayers,
      drainPlayer_empty 0 (mkPlayer "q" Team.blue PState.alive (-20)) _ _ (by simp [mkPlayer])]
  have hball2 : ∀ (ps : List ServerPlayer) (evs : List GameEvent),
      physicsBall ps evs 0 wallBall1 = (wallBall2, ps, evs) := by
    intro ps evs
    have h139 : |(139 : ℝ) / 5| = 139 / 5 := abs_of_nonneg (by norm_num)
    rw [physicsBall]
    norm_num [wallBall1, wallBall2, freeBallStep, gravityMove, floorBounce, wallBounce,
      jsSign, Vec3.add, Vec3.multiplyScalar, TICK_DT, h139]
    simp
  have hphys2 : ∀ (ps : List ServerPlayer) (evs : List GameEvent),
      physicsBalls 0 wallMatch1.balls ps evs = ([wallBall2], ps, evs) := by
    intro ps evs
    simp only [wallMatch1, physicsBalls, hball2]
  refine ⟨rfl, rfl, ?_, ?_⟩
  · rw [htick1]
    simp [wallMatch1, wallBall1]
  · rw [htick1, Match.tick]
    simp only [hphase2, hproc2, hphys2, recordHistory, Match.broadcastSnapshot]
    simp [wallMatch1, wallMatch, wallBall2, mkPlayer, HISTORY_SIZE, apply_ite]

/-- C6 witness: a thrown ball below the floor threshold is demoted to
idle with its owner cleared by the physics step. -/
theorem ball_ownership_amended_witness :
    (physicsBall [] [] 0 thrownLow).1.state = BState.idle ∧
    (physicsBall [] [] 0 thrownLow).1.owner = none :=
  ball_ownership_amended.2 [] [] 0 thrownLow rfl
    (by norm_num [postMoveY, thrownLow, Vec3.add, Vec3.multiplyScalar, TICK_DT])

/-! ## The warmup boundary (C9) -/

theorem processPlayers_empty (now : ℤ) :
    ∀ (ps : List ServerPlayer) (bs : List ServerBall) (evs : List GameEvent),
      (∀ p ∈ ps, p.inputBuffer = []) → processPlayers now ps bs evs = (ps, bs, evs)
  | [], _, _, _ => rfl
  | p :: ps, bs, evs, h => by
    simp only [processPlayers,
      drainPlayer_empty now p bs evs (h p (List.mem_cons_self p ps)),
      processPlayers_empty now ps bs evs (fun r hr => h r (List.mem_cons_of_mem p hr))]

theorem physicsBall_warmup (ps : List ServerPlayer) (evs : List GameEvent) (now : ℤ)
    (b : ServerBall) (h : b.state ≠ BState.thrown) :
    (physicsBall ps evs now b).2.1 = ps ∧ (physicsBall ps evs now b).2.2 = evs := by
  rw [physicsBall]
  by_cases h1 : b.state = BState.thrown ∨ b.state = BState.idle
  · rw [if_pos h1]
    dsimp only
    rw [if_neg]
    · exact ⟨rfl, rfl⟩
    · rintro ⟨hc, -⟩
      rcases freeBallStep_state b with h' | h' <;> rw [hc] at h'
      · exact h h'.symm
      · exact absurd h' (by simp)
  · rw [if_neg h1]
    by_cases h3 : b.state = BState.held ∧ b.owner.isSome
    · rw [if_pos h3]
      rcases hf : ps.find? (fun p => some p.id = b.owner) with _ | pp <;> simp [hf]
    · rw [if_neg h3]
      exact ⟨rfl, rfl⟩

theorem physicsBalls_warmup (now : ℤ) :
    ∀ (bs : List ServerBall) (ps : List ServerPlayer) (evs : List GameEvent),
      (∀ b ∈ bs, b.state ≠ BState.thrown) →
      (physicsBalls now bs ps evs).2.1 = ps ∧ (physicsBalls now bs ps evs).2.2 = evs ∧
      (physicsBalls now bs ps evs).1.map ServerBall.id = bs.map ServerBall.id ∧
      ∀ b' ∈ (physicsBalls now bs ps evs).1, b'.state ≠ BState.thrown
  | [], _, _, _ => ⟨rfl, rfl, rfl, by simp [physicsBalls]⟩
  | b :: bs, ps, evs, h => by
    have hb := h b (List.mem_cons_self b bs)
    have hstep := physicsBall_warmup ps evs now b hb
    simp only [physicsBalls, hstep.1, hstep.2]
    have ih := physicsBalls_warmup now bs ps evs (fun r hr => h r (List.mem_cons_of_mem b hr))
    refine ⟨ih.1, ih.2.1, ?_, ?_⟩
    · simp only [List.map_cons, ih.2.2.1, physicsBall_id]
    · intro b' hb'
      rcases List.mem_cons.1 hb' with rfl | hb'
      · exact physicsBall_not_thrown ps evs now b hb
      · exact ih.2.2.2 b' hb'

theorem phaseUpdate_warmup_stay (rand : String → ℝ) (now : ℤ) (m : Match)
    (h1 : m.matchState = MState.warmup) (h2 : TICK_DT < m.countdown) :
    Match.phaseUpdate rand now m = { m with countdown := m.countdown - TICK_DT } := by
  rw [Match.phaseUpdate, if_pos h1]
  dsimp only
  rw [if_neg (not_le.mpr (by linarith))]

theorem phaseUpdate_warmup_fire (rand : String → ℝ) (now : ℤ) (m : Match)
    (h1 : m.matchState = MState.warmup) (h2 : m.countdown ≤ TICK_DT) :
    Match.phaseUpdate rand now m =
      respawnAll rand { m with matchState := MState.playing, countdown := 0 } := by
  rw [Match.phaseUpdate, if_pos h1]
  dsimp only
  rw [if_pos (by linarith)]

/-- Which pipeline stage each field of the tick result comes from:
phase fields from the phase update, players and balls from the physics
stage (history recording and broadcast touch neither). -/
theorem tick_fields (rand : String → ℝ) (now : ℤ) (m : Match) :
    (Match.tick rand now m).matchState =
      (Match.phaseUpdate rand now { m with tickCount := m.tickCount + 1 }).matchState ∧
    (Match.tick rand now m).countdown =
      (Match.phaseUpdate rand now { m with tickCount := m.tickCount + 1 }).countdown ∧
    (Match.tick rand now m).tickCount =
      (Match.phaseUpdate rand now { m with tickCount := m.tickCount + 1 }).tickCount ∧
    (Match.tick rand now m).running =
      (Match.phaseUpdate rand now { m with tickCount := m.tickCount + 1 }).running ∧
    (Match.tick rand now m).matchTime =
      (Match.phaseUpdate rand now { m with tickCount := m.tickCount + 1 }).matchTime ∧
    (Match.tick rand now m).players =
      (physicsBalls now
        (processPlayers now
          (Match.phaseUpdate rand now { m with tickCount := m.tickCount + 1 }).players
          (Match.phaseUpdate rand now { m with tickCount := m.tickCount + 1 }).balls
          (Match.phaseUpdate rand now { m with tickCount := m.tickCount + 1 }).events).2.1
        (processPlayers now
          (Match.phaseUpdate rand now { m with tickCount := m.tickCount + 1 }).players
          (Match.phaseUpdate rand now { m with tickCount := m.tickCount + 1 }).balls
          (Match.phaseUpdate rand now { m with tickCount := m.tickCount + 1 }).events).1
        (processPlayers now
          (Match.phaseUpdate rand now { m with tickCount := m.tickCount + 1 }).players
          (Match.phaseUpdate rand now { m with tickCount := m.tickCount + 1 }).balls
          (Match.phaseUpdate rand now { m with tickCount := m.tickCount + 1 }).events).2.2).2.1 ∧
    (Match.tick rand now m).balls =
      (physicsBalls now
        (processPlayers now
          (Match.phaseUpdate rand now { m with tickCount := m.tickCount + 1 }).players
          (Match.phaseUpdate rand now { m with tickCount := m.tickCount + 1 }).balls
          (Match.phaseUpdate rand now { m with tickCount := m.tickCount + 1 }).events).2.1
        (processPlayers now
          (Match.phaseUpdate rand now { m with tickCount := m.tickCount + 1 }).players
          (Match.phaseUpdate rand now { m with tickCount := m.tickCount + 1 }).balls
          (Match.phaseUpdate rand now { m with tickCount := m.tickCount + 1 }).events).1
        (processPlayers now
          (Match.phaseUpdate rand now { m with tickCount := m.tickCount + 1 }).players
          (Match.phaseUpdate rand now { m with tickCount := m.tickCount + 1 }).balls
          (Match.phaseUpdate rand now { m with tickCount := m.tickCount + 1 }).events).2.2).1 := by
  rw [Match.tick]
  split_ifs <;> simp [recordHistory, Match.broadcastSnapshot]

/-- One warmup tick with no pending input and no ball in flight: the
countdown decreases by `TICK_DT` and everything else observable is
framed (players unchanged, ball ids and non-flight preserved). -/
theorem warmup_tick_step (rand : String → ℝ) (now : ℤ) (m : Match)
    (h1 : m.matchState = MState.warmup) (h2 : TICK_DT < m.countdown)
    (hbuf : ∀ p ∈ m.players, p.inputBuffer = [])
    (hnt : ∀ b ∈ m.balls, b.state ≠ BState.thrown) :
    (Match.tick rand now m).matchState = MState.warmup ∧
    (Match.tick rand now m).countdown = m.countdown - TICK_DT ∧
    (Match.tick rand now m).players = m.players ∧
    (Match.tick rand now m).balls.map ServerBall.id = m.balls.map ServerBall.id ∧
    (∀ b ∈ (Match.tick rand now m).balls, b.state ≠ BState.thrown) ∧
    (Match.tick rand now m).tickCount = m.tickCount + 1 := by
  obtain ⟨hms, hcd, htc, -, -, hpl, hbl⟩ := tick_fields rand now m
  have hphase := phaseUpdate_warmup_stay rand now { m with tickCount := m.tickCount + 1 }
    (by simpa using h1) (by simpa using h2)
  have hpr : processPlayers now m.players m.balls m.events = (m.players, m.balls, m.events) :=
    processPlayers_empty now m.players m.balls m.events hbuf
  have hphys := physicsBalls_warmup now m.balls m.players m.events hnt
  rw [hphase] at hms hcd htc hpl hbl
  simp only [hpr] at hpl hbl
  refine ⟨hms.trans h1, hcd, hpl.trans hphys.1, ?_, ?_, htc⟩
  · rw [hbl]
    exact hphys.2.2.1
  · rw [hbl]
    exact hphys.2.2.2

/-- The physics step applied to a freshly respawned ball: one gravity
step from height 0.5 with zero velocity; no floor, wall or hit branch
fires (the six slots are well inside the arena). -/
theorem physicsBall_respawned (ps : List ServerPlayer) (evs : List GameEvent) (now : ℤ)
    (b : ServerBall) (hid : b.id < 6) :
    physicsBall ps evs now (respawnedBall b) = (settledBall b, ps, evs) := by
  have hc5 : (b.id : ℝ) ≤ 5 := by exact_mod_cast Nat.lt_succ_iff.mp hid
  have hc0 : (0 : ℝ) ≤ (b.id : ℝ) := Nat.cast_nonneg b.id
  have hg : gravityMove (respawnedBall b) =
      { respawnedBall b with
        vel := ⟨0, -(1 / 2), 0⟩
        pos := ⟨((b.id : ℝ) - 2.5) * 5, 29 / 60, 0⟩ } := by
    rw [gravityMove]
    norm_num [respawnedBall, Vec3.add, Vec3.multiplyScalar, TICK_DT]
  have hwall : ∀ (c : ServerBall), ¬ (|c.pos.x| > (29 : ℝ)) → ¬ (|c.pos.z| > (29 : ℝ)) →
      wallBounce c = c := by
    intro c hx hz
    rw [wallBounce]
    rw [if_neg hx, if_neg hz]
  have hfree : freeBallStep (respawnedBall b) = settledBall b := by
    rw [freeBallStep, hg, floorBounce, if_neg (by norm_num [respawnedBall])]
    rw [hwall _ (by
        simp only [respawnedBall]
        rw [not_lt, abs_le]
        constructor <;> nlinarith)
      (by norm_num [respawnedBall])]
    simp [respawnedBall, settledBall]
  rw [physicsBall, if_pos (show (respawnedBall b).state = BState.thrown ∨
    (respawnedBall b).state = BState.idle from Or.inr rfl)]
  dsimp only
  rw [hfree, if_neg (by simp [settledBall])]

theorem physicsBalls_respawned (now : ℤ) :
    ∀ (bs : List ServerBall) (ps : List ServerPlayer) (evs : List GameEvent),
      (∀ b ∈ bs, b.id < 6) →
      physicsBalls now (bs.map respawnedBall) ps evs = (bs.map settledBall, ps, evs)
  | [], _, _, _ => rfl
  | b :: bs, ps, evs, h => by
    simp only [List.map_cons, physicsBalls,
      physicsBall_respawned ps evs now b (h b (List.mem_cons_self b bs)),
      physicsBalls_respawned now bs ps evs (fun r hr => h r (List.mem_cons_of_mem b hr))]

/-- The transition tick (countdown hits zero): phase flips to playing,
players respawn, and the respawned balls take one gravity step in the
same tick. -/
theorem transition_tick (rand : String → ℝ) (now : ℤ) (m : Match)
    (h1 : m.matchState = MState.warmup) (h2 : m.countdown ≤ TICK_DT)
    (hbuf : ∀ p ∈ m.players, p.inputBuffer = [])
    (hid : ∀ b ∈ m.balls, b.id < 6) :
    (Match.tick rand now m).matchState = MState.playing ∧
    (Match.tick rand now m).countdown = 0 ∧
    (Match.tick rand now m).players = m.players.map (respawnedPlayer rand) ∧
    (Match.tick rand now m).balls = m.balls.map settledBall := by
  obtain ⟨hms, hcd, -, -, -, hpl, hbl⟩ := tick_fields rand now m
  have hphase := phaseUpdate_warmup_fire rand now { m with tickCount := m.tickCount + 1 }
    (by simpa using h1) (by simpa using h2)
  rw [hphase] at hms hcd hpl hbl
  simp only [respawnAll] at hms hcd hpl hbl
  have hpr : processPlayers now (m.players.map (respawnedPlayer rand))
      (m.balls.map respawnedBall) m.events =
      (m.players.map (respawnedPlayer rand), m.balls.map respawnedBall, m.events) := by
    refine processPlayers_empty now _ _ _ ?_
    intro q hq
    obtain ⟨p, hp, rfl⟩ := List.mem_map.1 hq
    simpa [respawnedPlayer] using hbuf p hp
  simp only [hpr] at hpl hbl
  have hphys := physicsBalls_respawned now m.balls (m.players.map (respawnedPlayer rand))
    m.events hid
  simp only [hphys] at hpl hbl
  exact ⟨hms, hcd, hpl, hbl⟩

/-- The first 149 ticks stay in warmup, with the countdown in closed
form and players and balls framed. -/
theorem warmup_iter (rand : String → ℝ) (now : ℤ) (m : Match)
    (h1 : m.matchState = MState.warmup) (hcd : m.countdown = 5)
    (hbuf : ∀ p ∈ m.players, p.inputBuffer = [])
    (hnt : ∀ b ∈ m.balls, b.state ≠ BState.thrown) :
    ∀ k : ℕ, k ≤ 149 →
      (iterTick rand now k m).matchState = MState.warmup ∧
      (iterTick rand now k m).countdown = 5 - (k : ℚ) / 30 ∧
      (iterTick rand now k m).players = m.players ∧
      (iterTick rand now k m).balls.map ServerBall.id = m.balls.map ServerBall.id ∧
      ∀ b ∈ (iterTick rand now k m).balls, b.state ≠ BState.thrown := by
  intro k
  induction k with
  | zero =>
    intro _
    refine ⟨h1, ?_, rfl, rfl, hnt⟩
    norm_num [iterTick, hcd]
  | succ k ih =>
    intro hk
    obtain ⟨ims, icd, ipl, ibl, int⟩ := ih (Nat.le_of_succ_le hk)
    have hk148 : (k : ℚ) ≤ 148 := by exact_mod_cast Nat.succ_le_succ_iff.mp hk
    have hstep := warmup_tick_step rand now (iterTick rand now k m) ims
      (by rw [icd]; rw [TICK_DT]; linarith)
      (by rw [ipl]; exact hbuf) int
    have hit : iterTick rand now (k + 1) m = Match.tick rand now (iterTick rand now k m) :=
      Function.iterate_succ_apply' _ _ _
    rw [hit]
    refine ⟨hstep.1, ?_, hstep.2.2.1.trans ipl, hstep.2.2.2.1.trans ibl, hstep.2.2.2.2.1⟩
    rw [hstep.2.1, icd, TICK_DT]
    push_cast
    ring

/-- The full 150-tick warmup run: 149 warmup ticks, then the transition
tick that respawns everything and applies one physics step. -/
theorem warmup150_core (rand : String → ℝ) (now : ℤ) (m : Match)
    (h1 : m.matchState = MState.warmup) (hcd : m.countdown = 5)
    (hbuf : ∀ p ∈ m.players, p.inputBuffer = [])
    (hnt : ∀ b ∈ m.balls, b.state ≠ BState.thrown)
    (hid : ∀ b ∈ m.balls, b.id < 6) :
    (iterTick rand now 150 m).matchState = MState.playing ∧
    (iterTick rand now 150 m).countdown = 0 ∧
    (iterTick rand now 150 m).players = m.players.map (respawnedPlayer rand) ∧
    (iterTick rand now 150 m).balls = (iterTick rand now 149 m).balls.map settledBall ∧
    (iterTick rand now 149 m).balls.map ServerBall.id = m.balls.map ServerBall.id := by
  obtain ⟨ims, icd, ipl, ibl, int⟩ := warmup_iter rand now m h1 hcd hbuf hnt 149 le_rfl
  have hid' : ∀ b ∈ (iterTick rand now 149 m).balls, b.id < 6 := by
    intro b hb
    have hmem : b.id ∈ (iterTick rand now 149 m).balls.map ServerBall.id :=
      List.mem_map_of_mem _ hb
    rw [ibl] at hmem
    obtain ⟨b0, hb0, hbid⟩ := List.mem_map.1 hmem
    rw [← hbid]
    exact hid b0 hb0
  have htrans := transition_tick rand now (iterTick rand now 149 m) ims
    (by rw [icd, TICK_DT]; norm_num)
    (by rw [ipl]; exact hbuf) hid'
  have hit : iterTick rand now 150 m = Match.tick rand now (iterTick rand now 149 m) :=
    Function.iterate_succ_apply' _ _ _
  rw [hit]
  exact ⟨htrans.1, htrans.2.1, htrans.2.2.1.trans (by rw [ipl]), htrans.2.2.2, ibl⟩

/-- C9 amended: from warmup with countdown 5 and no arriving input, after
exactly 150 ticks the phase is playing and every player is reset to its
spawn configuration (spawn position from the random sample, zero
velocity, alive, full stamina, holding nothing — `respawnedPlayer`);
every ball is idle and unowned at its initial x/z slot, but at height
`29/60` with vertical velocity `-1/2`, not at its initial resting
position: the transition tick's own physics pass applies one gravity
step to the freshly reset balls. -/
theorem warmup_boundary_amended (rand : String → ℝ) (now : ℤ) (m : Match)
    (h1 : m.matchState = MState.warmup) (hcd : m.countdown = 5)
    (hbuf : ∀ p ∈ m.players, p.inputBuffer = [])
    (hnt : ∀ b ∈ m.balls, b.state ≠ BState.thrown)
    (hid : ∀ b ∈ m.balls, b.id < 6) :
    (iterTick rand now 150 m).matchState = MState.playing ∧
    (iterTick rand now 150 m).players = m.players.map (respawnedPlayer rand) ∧
    (iterTick rand now 150 m).balls.map ServerBall.id = m.balls.map ServerBall.id ∧
    ∀ b ∈ (iterTick rand now 150 m).balls,
      b.state = BState.idle ∧ b.owner = none ∧
      b.pos = ⟨((b.id : ℝ) - 2.5) * 5, 29 / 60, 0⟩ ∧ b.vel = ⟨0, -(1 / 2), 0⟩ := by
  obtain ⟨hms, -, hpl, hbl, hids⟩ := warmup150_core rand now m h1 hcd hbuf hnt hid
  refine ⟨hms, hpl, ?_, ?_⟩
  · rw [hbl, List.map_map]
    exact (List.map_congr_left fun b _ => rfl).trans hids
  · intro b hb
    rw [hbl] at hb
    obtain ⟨b0, hb0, rfl⟩ := List.mem_map.1 hb
    exact ⟨rfl, rfl, rfl, rfl⟩

/-- C9 counterexample: from the freshly constructed warmup match, after
exactly 150 ticks every ball's height is `29/60` — not the initial idle
height `1/2` the balls are reset to — because the transition tick's
physics pass runs after `respawnAll` within the same tick. -/
theorem after150_balls_not_at_initial_height :
    ((iterTick (fun _ => 1 / 2) 0 150 warmupMatch).balls.map fun b => b.pos.y) =
      List.replicate 6 ((29 : ℝ) / 60) ∧
    (warmupMatch.balls.map fun b => b.pos.y) = List.replicate 6 ((1 : ℝ) / 2) ∧
    ((29 : ℝ) / 60) ≠ 1 / 2 := by
  have hbuf : ∀ p ∈ warmupMatch.players, p.inputBuffer = [] := by
    intro p hp
    simp only [warmupMatch, List.mem_cons, List.not_mem_nil, or_false] at hp
    rcases hp with rfl | rfl <;> rfl
  have hnt : ∀ b ∈ warmupMatch.balls, b.state ≠ BState.thrown := by
    intro b hb
    simp only [warmupMatch, List.mem_map] at hb
    obtain ⟨i, -, rfl⟩ := hb
    simp [initBall]
  have hid : ∀ b ∈ warmupMatch.balls, b.id < 6 := by
    intro b hb
    simp only [warmupMatch, List.mem_map] at hb
    obtain ⟨i, hi, rfl⟩ := hb
    simpa [initBall] using List.mem_range.1 hi
  obtain ⟨-, -, -, hbl, hids⟩ :=
    warmup150_core (fun _ => 1 / 2) 0 warmupMatch rfl rfl hbuf hnt hid
  have hlen : (iterTick (fun _ => 1 / 2) 0 149 warmupMatch).balls.length = 6 := by
    have hl := congrArg List.length hids
    simpa [warmupMatch] using hl
  refine ⟨?_, ?_, by norm_num⟩
  · rw [hbl, List.map_map, List.eq_replicate]
    constructor
    · simpa using hlen
    · intro y hy
      obtain ⟨b0, -, rfl⟩ := List.mem_map.1 hy
      rfl
  · rw [show warmupMatch.balls = (List.range 6).map initBall from rfl, List.map_map,
      List.eq_replicate]
    constructor
    · simp
    · intro y hy
      obtain ⟨i, -, rfl⟩ := List.mem_map.1 hy
      norm_num [initBall]

/-- C9 witness: the amended statement applied to the concrete warmup
match with the constant random sample 1/2. -/
theorem warmup_boundary_amended_witness :
    (iterTick (fun _ => 1 / 2) 0 150 warmupMatch).matchState = MState.playing ∧
    (iterTick (fun _ => 1 / 2) 0 150 warmupMatch).players =
      warmupMatch.players.map (respawnedPlayer fun _ => 1 / 2) ∧
    (iterTick (fun _ => 1 / 2) 0 150 warmupMatch).balls.map ServerBall.id =
      warmupMatch.balls.map ServerBall.id ∧
    ∀ b ∈ (iterTick (fun _ => 1 / 2) 0 150 warmupMatch).balls,
      b.state = BState.idle ∧ b.owner = none ∧
      b.pos = ⟨((b.id : ℝ) - 2.5) * 5, 29 / 60, 0⟩ ∧ b.vel = ⟨0, -(1 / 2), 0⟩ :=
  warmup_boundary_amended (fun _ => 1 / 2) 0 warmupMatch rfl rfl
    (by
      intro p hp
      simp only [warmupMatch, List.mem_cons, List.not_mem_nil, or_false] at hp
      rcases hp with rfl | rfl <;> rfl)
    (by
      intro b hb
      simp only [warmupMatch, List.mem_map] at hb
      obtain ⟨i, -, rfl⟩ := hb
      simp [initBall])
    (by
      intro b hb
      simp only [warmupMatch, List.mem_map] at hb
      obtain ⟨i, hi, rfl⟩ := hb
      simpa [initBall] using List.mem_range.1 hi)

/-- C4 witness: one tick from a concrete playing match, with the constant
sample 1/2. -/
theorem stamina_position_bounded_witness :
    MatchPlayersInv (applySteps (fun _ => 1 / 2) finishMatch [SimStep.tick 0]) :=
  stamina_position_bounded (fun _ => 1 / 2) (fun _ => by norm_num) finishMatch
    (by
      intro p hp
      simp only [finishMatch, List.mem_cons, List.mem_singleton] at hp
      rcases hp with rfl | rfl | h
      · exact ⟨by norm_num [mkPlayer], by norm_num [mkPlayer],
          by norm_num [mkPlayer], by norm_num [mkPlayer]⟩
      · exact ⟨by norm_num [mkPlayer], by norm_num [mkPlayer],
          by norm_num [mkPlayer], by norm_num [mkPlayer]⟩
      · cases h)
    [SimStep.tick 0]

end PolyDodge
